import Mathlib

/-!
# Florestan's type traits (`src/florestan/type_traits.h`)

A shallow embedding of the `_Generic` dispatch tables of `type_traits.h`, of the
`allocated_info` record builder, of the label written by `printtype` and of the debugging
table `__type_num`.

## How the C constructs are read

* A C type is a term of `CType`: a scalar kind with its `const` flag, wrapped in pointer
  levels (each with its own `const` flag) and array declarators.
* `_Generic((e), T1: v1, ..., default: d)` selects the first association whose type is
  compatible with the type of `e` *after lvalue conversion* (C17 6.5.1.1p2): top-level
  qualifiers are dropped and an array decays to a pointer to its first element.  For the
  types used here, compatibility is structural equality (equal kinds, equal qualifiers at
  every level).
* `&x` has type "pointer to the declared type of `x`", qualifiers of `x` kept.
* `sizeof` does not convert its operand.
* Every table below is generated row by row in the order in which the header lists it.
-/

namespace Florestan

/-- The sixteen primitive kinds named by the header (`void` only occurs behind a pointer). -/
inductive Kind
  | void | bool | char | short | int | long | llong | double | float | ldouble
  | schar | uchar | ushort | uint | ulong | ullong
  deriving DecidableEq, Repr

/-- C types: qualified scalars, aggregates (structs, never listed in any table),
qualified pointers and arrays. -/
inductive CType
  | scalar (k : Kind) (isConst : Bool)
  | aggregate (size : Nat) (isConst : Bool)
  | ptr (pointee : CType) (isConst : Bool)
  | arr (elem : CType) (len : Nat)
  deriving DecidableEq, Repr

/-- The type `stars n t` is `t` followed by `n` unqualified `*`. -/
def stars : Nat → CType → CType
  | 0, t => t
  | n + 1, t => CType.ptr (stars n t) false

/-- Lvalue conversion and array-to-pointer decay, applied to the controlling expression of
`_Generic`. -/
def lvalueConv : CType → CType
  | CType.scalar k _ => CType.scalar k false
  | CType.aggregate s _ => CType.aggregate s false
  | CType.ptr t _ => CType.ptr t false
  | CType.arr e _ => CType.ptr e false

/-- Type of `&x` for an lvalue `x` of type `t`. -/
def addrOf (t : CType) : CType := CType.ptr t false

/-- Type of `*x` (and of `x[0]`); `none` when `x` is neither a pointer nor an array. -/
def deref : CType → Option CType
  | CType.ptr t _ => some t
  | CType.arr e _ => some e
  | _ => none

/-- The `_Generic` selection: first association with a type equal to the controlling type,
else the default. -/
def generic {α : Type} (ctrl : CType) : List (CType × α) → α → α
  | [], dflt => dflt
  | (t, v) :: rest, dflt => if t = ctrl then v else generic ctrl rest dflt

/-- Kinds listed on the depth-0 rows, in the header's order. -/
def scalarKinds : List Kind :=
  [Kind.bool, Kind.char, Kind.short, Kind.int, Kind.long, Kind.llong, Kind.double,
   Kind.float, Kind.ldouble, Kind.schar, Kind.uchar, Kind.ushort, Kind.uint, Kind.ulong,
   Kind.ullong]

/-- Kinds listed on the pointer rows: `void` first, then the scalar kinds. -/
def pointerKinds : List Kind := Kind.void :: scalarKinds

/-- One source row `K*..*: v, const K*..*: w` with `n` stars. -/
def rowPair {α : Type} (n : Nat) (k : Kind) (v w : α) : List (CType × α) :=
  [(stars n (CType.scalar k false), v), (stars n (CType.scalar k true), w)]

/-- Association list of `__is_K` for a non-void kind: `K: 1, const K: 1, ..., K****: 1,
const K****: 1`. -/
def kindTable (k : Kind) : List (CType × Nat) :=
  [0, 1, 2, 3, 4].flatMap fun n => rowPair n k 1 1

/-- Association list of `__is_void`: `void*: 1, const void*: 1, ..., void*****: 1,
const void*****: 1`. -/
def voidTable : List (CType × Nat) :=
  [1, 2, 3, 4, 5].flatMap fun n => rowPair n Kind.void 1 1

/-- Macro `__is_void(x)`: `_Generic((&x), ...)`. -/
def __is_void (t : CType) : Nat := generic (addrOf t) voidTable 0
/-- Macro `__is_bool(x)`: `_Generic((x), ...)`; likewise for the other fourteen kinds. -/
def __is_bool (t : CType) : Nat := generic (lvalueConv t) (kindTable Kind.bool) 0
def __is_char (t : CType) : Nat := generic (lvalueConv t) (kindTable Kind.char) 0
def __is_short (t : CType) : Nat := generic (lvalueConv t) (kindTable Kind.short) 0
def __is_int (t : CType) : Nat := generic (lvalueConv t) (kindTable Kind.int) 0
def __is_long (t : CType) : Nat := generic (lvalueConv t) (kindTable Kind.long) 0
def __is_llong (t : CType) : Nat := generic (lvalueConv t) (kindTable Kind.llong) 0
def __is_double (t : CType) : Nat := generic (lvalueConv t) (kindTable Kind.double) 0
def __is_float (t : CType) : Nat := generic (lvalueConv t) (kindTable Kind.float) 0
def __is_ldouble (t : CType) : Nat := generic (lvalueConv t) (kindTable Kind.ldouble) 0
def __is_schar (t : CType) : Nat := generic (lvalueConv t) (kindTable Kind.schar) 0
def __is_uchar (t : CType) : Nat := generic (lvalueConv t) (kindTable Kind.uchar) 0
def __is_ushort (t : CType) : Nat := generic (lvalueConv t) (kindTable Kind.ushort) 0
def __is_uint (t : CType) : Nat := generic (lvalueConv t) (kindTable Kind.uint) 0
def __is_ulong (t : CType) : Nat := generic (lvalueConv t) (kindTable Kind.ulong) 0
def __is_ullong (t : CType) : Nat := generic (lvalueConv t) (kindTable Kind.ullong) 0

/-- The kind predicate `__is_K` selected by `K`. -/
def isKind : Kind → CType → Nat
  | Kind.void => __is_void
  | Kind.bool => __is_bool
  | Kind.char => __is_char
  | Kind.short => __is_short
  | Kind.int => __is_int
  | Kind.long => __is_long
  | Kind.llong => __is_llong
  | Kind.double => __is_double
  | Kind.float => __is_float
  | Kind.ldouble => __is_ldouble
  | Kind.schar => __is_schar
  | Kind.uchar => __is_uchar
  | Kind.ushort => __is_ushort
  | Kind.uint => __is_uint
  | Kind.ulong => __is_ulong
  | Kind.ullong => __is_ullong

/-- Association list of `__pointer_depth`: the fifteen scalar rows with value 0, then for
each depth 1..4 the sixteen pointer rows with that depth. -/
def depthTable : List (CType × Nat) :=
  (scalarKinds.flatMap fun k => rowPair 0 k 0 0) ++
  ([1, 2, 3, 4].flatMap fun n => pointerKinds.flatMap fun k => rowPair n k n n)

/-- Macro `__pointer_depth(x)`: `_Generic((x), ...)`. -/
def __pointer_depth (t : CType) : Nat := generic (lvalueConv t) depthTable 0

/-- First association list of `__is_const` (selected on `&x`): `K*: 0, const K*: 1` for the
sixteen pointer kinds. -/
def constAddrTable : List (CType × Nat) :=
  pointerKinds.flatMap fun k => rowPair 1 k 0 1

/-- Second association list of `__is_const` (selected on `x`): `K*..*: 0, const K*..*: 1`
for depths 1..4 and the sixteen pointer kinds. -/
def constValTable : List (CType × Nat) :=
  [1, 2, 3, 4].flatMap fun n => pointerKinds.flatMap fun k => rowPair n k 0 1

/-- The lookup of `__is_const` on the type of `&x`. -/
def isConstAddr (t : CType) : Nat := generic (addrOf t) constAddrTable 0

/-- The lookup of `__is_const` on the type of `x`. -/
def isConstVal (t : CType) : Nat := generic (lvalueConv t) constValTable 0

/-- Macro `__is_const(x)`: `(_Generic((&x), ...) || _Generic((x), ...))`, an `int` 0 or 1. -/
def __is_const (t : CType) : Nat :=
  if isConstAddr t ≠ 0 ∨ isConstVal t ≠ 0 then 1 else 0

/-- One source row of the depth 2..5 part of `__is_const_pointer`:
`K*^m: 0, const K*^m: 0, K*^(m-1) const*: 1, const K*^(m-1) const*: 1`, with `m = j + 2`. -/
def constPtrRow (j : Nat) (k : Kind) : List (CType × Nat) :=
  rowPair (j + 2) k 0 0 ++
  [(CType.ptr (CType.ptr (stars j (CType.scalar k false)) true) false, 1),
   (CType.ptr (CType.ptr (stars j (CType.scalar k true)) true) false, 1)]

/-- Association list of `__is_const_pointer` (selected on `&x`). -/
def constPtrTable : List (CType × Nat) :=
  (pointerKinds.flatMap fun k => rowPair 1 k 0 0) ++
  ([0, 1, 2, 3].flatMap fun j => pointerKinds.flatMap fun k => constPtrRow j k)

/-- Macro `__is_const_pointer(x)`: `_Generic((&x), ...)`. -/
def __is_const_pointer (t : CType) : Nat := generic (addrOf t) constPtrTable 0

/-- Sizes fixed by the target platform.  `sizeofKind Kind.void` is the value the compiler
gives `sizeof(void)` (1 as a GNU extension). -/
structure Platform where
  sizeofKind : Kind → Nat
  sizeofPtr : Nat

/-- The operator `sizeof(T)`. -/
def sizeof (P : Platform) : CType → Nat
  | CType.scalar k _ => P.sizeofKind k
  | CType.aggregate s _ => s
  | CType.ptr _ _ => P.sizeofPtr
  | CType.arr e n => n * sizeof P e

/-- Value of a pointer row of `__sizeof`: `0` on the `void` rows, `sizeof(K)` otherwise. -/
def sizeofRowValue (P : Platform) (k : Kind) : Nat :=
  if k = Kind.void then 0 else P.sizeofKind k

/-- Association list of `__sizeof`: fifteen scalar rows, then sixteen pointer rows for each
depth 1..4. -/
def sizeofTable (P : Platform) : List (CType × Nat) :=
  (scalarKinds.flatMap fun k => rowPair 0 k (P.sizeofKind k) (P.sizeofKind k)) ++
  ([1, 2, 3, 4].flatMap fun n => pointerKinds.flatMap fun k =>
    rowPair n k (sizeofRowValue P k) (sizeofRowValue P k))

/-- Macro `__sizeof(e)`: `_Generic((e), ..., default: sizeof(e))`. -/
def __sizeof (P : Platform) (t : CType) : Nat :=
  generic (lvalueConv t) (sizeofTable P) (sizeof P t)

/-- The enumeration `methods`: `dynamic`, `allocated`, `fixed`. -/
inductive methods
  | dynamic | allocated | fixed
  deriving DecidableEq, Repr

/-- The structure `__allocated_record`. -/
structure allocated_record where
  name : String
  method : methods
  pointer_depth : Nat
  typesize : Nat
  totalsize : Nat
  arraysize : Nat
  deriving DecidableEq, Repr

/-- Ways in which `allocated_info(x)` yields no record: the expansion does not type-check
(`*x` needs a pointer or an array), or the selected `arraysize` expression divides by 0. -/
inductive BuildError
  | illTyped | divByZero
  deriving DecidableEq, Repr

/-- Division of `size_t` values; a zero divisor has no result. -/
def udiv (a b : Nat) : Except BuildError Nat :=
  if b = 0 then Except.error BuildError.divByZero else Except.ok (a / b)

/-- Macro `__is_allocated(x)`: `alloc_sizeof(x) > 0`, on the probe's result. -/
def __is_allocated (probe : Nat) : Bool := decide (probe > 0)

/-- Macro `__is_fixed_array(x)`: `sizeof(x) != sizeof(void*)`. -/
def __is_fixed_array (P : Platform) (t : CType) : Bool :=
  decide (sizeof P t ≠ P.sizeofPtr)

/-- Macro `__fixed_arraysize(x)`: `sizeof(x) / sizeof(x[0])`, `elem` being the type of `x[0]`. -/
def __fixed_arraysize (P : Platform) (t elem : CType) : Except BuildError Nat :=
  udiv (sizeof P t) (sizeof P elem)

/-- Macro `__make_allocated_record(x)` for `x` of declared type `t`, spelled `name`, when
`alloc_sizeof(x)` evaluates to `probe`.  Each conditional evaluates only the operand it
selects. -/
def __make_allocated_record (P : Platform) (name : String) (t : CType) (probe : Nat) :
    Except BuildError allocated_record :=
  match deref t with
  | none => Except.error BuildError.illTyped
  | some elem =>
    match (if __is_fixed_array P t then __fixed_arraysize P t elem
           else udiv probe (__sizeof P elem)) with
    | Except.error e => Except.error e
    | Except.ok count =>
      Except.ok
        { name := name
          method := if __is_allocated probe then methods.allocated
                    else if __is_fixed_array P t then methods.fixed else methods.dynamic
          pointer_depth := __pointer_depth t % 256
          typesize := if __is_fixed_array P t then sizeof P elem else __sizeof P elem
          totalsize := if __is_fixed_array P t then sizeof P t else probe
          arraysize := count }

/-- Macro `allocated_info(x)`. -/
def allocated_info (P : Platform) (name : String) (t : CType) (probe : Nat) :
    Except BuildError allocated_record :=
  __make_allocated_record P name t probe

/-- The LP64 sizes (x86-64 Linux and macOS), with GNU `sizeof(void) = 1`. -/
def lp64 : Platform where
  sizeofKind
    | Kind.void => 1
    | Kind.bool => 1
    | Kind.char => 1
    | Kind.short => 2
    | Kind.int => 4
    | Kind.long => 8
    | Kind.llong => 8
    | Kind.double => 8
    | Kind.float => 4
    | Kind.ldouble => 16
    | Kind.schar => 1
    | Kind.uchar => 1
    | Kind.ushort => 2
    | Kind.uint => 4
    | Kind.ulong => 8
    | Kind.ullong => 8
  sizeofPtr := 8

/-- Declared type of a variable of kind `k` with `n` pointer levels: `[const] K` for
`n = 0`, and `[const] K *..* [const]` with `n` stars otherwise, the trailing `const`
qualifying the variable itself. -/
def declType (k : Kind) (n : Nat) (scalarConst ptrConst : Bool) : CType :=
  match n with
  | 0 => CType.scalar k scalarConst
  | m + 1 => CType.ptr (stars m (CType.scalar k scalarConst)) ptrConst

/-- Number of indirection levels of a type: pointer levels, whatever their qualifiers, and
array declarators (an array is inspected through the pointer it decays to). -/
def indirections : CType → Nat
  | CType.ptr t _ => indirections t + 1
  | CType.arr e _ => indirections e + 1
  | _ => 0

/-- Qualifier of the outermost pointer level, the one the variable itself has (the last
`*` of the declarator); `false` for a type that is not a pointer. -/
def outerPtrConst : CType → Bool
  | CType.ptr _ q => q
  | _ => false

/-- Qualifier of the innermost pointer level of a pointer chain, the one adjacent to the
scalar (the first `*` of the declarator); `false` for a type that is not a pointer. -/
def innerPtrConst : CType → Bool
  | CType.ptr t q =>
    match t with
    | CType.ptr _ _ => innerPtrConst t
    | _ => q
  | _ => false

/-- Name printed by `printtype` for each kind. -/
def kindName : Kind → String
  | Kind.void => "void"
  | Kind.bool => "bool"
  | Kind.char => "char"
  | Kind.short => "short"
  | Kind.int => "int"
  | Kind.long => "long"
  | Kind.llong => "long long"
  | Kind.double => "double"
  | Kind.float => "float"
  | Kind.ldouble => "long double"
  | Kind.schar => "signed char"
  | Kind.uchar => "unsigned char"
  | Kind.ushort => "unsigned short"
  | Kind.uint => "unsigned int"
  | Kind.ulong => "unsigned long"
  | Kind.ullong => "unsigned long long"

/-- One kind argument of `printtype`: `(__is_K(x) ? "K" : "")`. -/
def kindPart (k : Kind) (t : CType) : String :=
  if isKind k t ≠ 0 then kindName k else ""

/-- Indirection argument of `printtype`:
`(depth == 1 ? " *" : (depth == 2 ? " **" : (depth == 3 ? " ***" : "")))`. -/
def depthMarker (d : Nat) : String :=
  if d = 1 then " *" else if d = 2 then " **" else if d = 3 then " ***" else ""

/-- The nineteen `%s` arguments of `printtype` after the variable's name, concatenated in
the order of the format string: the `const ` qualifier, the sixteen kind names, the
indirection marker and the ` const` pointer qualifier. -/
def typeLabel (t : CType) : String :=
  (if __is_const t ≠ 0 then "const " else "") ++
  kindPart Kind.void t ++ kindPart Kind.bool t ++ kindPart Kind.char t ++
  kindPart Kind.short t ++ kindPart Kind.int t ++ kindPart Kind.long t ++
  kindPart Kind.llong t ++ kindPart Kind.double t ++ kindPart Kind.float t ++
  kindPart Kind.ldouble t ++ kindPart Kind.schar t ++ kindPart Kind.uchar t ++
  kindPart Kind.ushort t ++ kindPart Kind.uint t ++ kindPart Kind.ulong t ++
  kindPart Kind.ullong t ++
  depthMarker (__pointer_depth t) ++
  (if __is_const_pointer t ≠ 0 then " const" else "")

/-- The line written by `printtype(x)` for `x` spelled `name`, of declared type `t`. -/
def printtype (name : String) (t : CType) : String :=
  "The type of the variable \"" ++ name ++ "\": " ++ typeLabel t ++ "\n"

/-- Number of `*` characters of a string. -/
def starCount (s : String) : Nat := s.data.count '*'

/-- Position of a kind among the pointer rows of the tables (`void` first). -/
def kindIndex : Kind → Nat
  | Kind.void => 0
  | Kind.bool => 1
  | Kind.char => 2
  | Kind.short => 3
  | Kind.int => 4
  | Kind.long => 5
  | Kind.llong => 6
  | Kind.double => 7
  | Kind.float => 8
  | Kind.ldouble => 9
  | Kind.schar => 10
  | Kind.uchar => 11
  | Kind.ushort => 12
  | Kind.uint => 13
  | Kind.ulong => 14
  | Kind.ullong => 15

/-- Number written next to a type in `__type_num`: the scalar rows `K: 2i-1, const K: 2i`
take 1..30, and each pointer row `K*^n, const K*^n, K*^n const, const K*^n const` takes four
consecutive numbers, 64 per depth, starting at 31. -/
def typeNumValue (n : Nat) (k : Kind) (sc fc : Bool) : Nat :=
  if n = 0 then 2 * kindIndex k - 1 + (if sc then 1 else 0)
  else 30 + 64 * (n - 1) + 4 * kindIndex k + 1 + (if sc then 1 else 0) + (if fc then 2 else 0)

/-- One association of `__type_num`. -/
def typeNumEntry (n : Nat) (k : Kind) (sc fc : Bool) : CType × Nat :=
  (declType k n sc fc, typeNumValue n k sc fc)

/-- Association list of `__type_num`: `bool: 1, const bool: 2, ...,
const unsigned long long: 30`, then for each depth 1..4 and each of the sixteen kinds the row
`K*^n: b+1, const K*^n: b+2, K*^n const: b+3, const K*^n const: b+4`, up to 286. -/
def typeNumTable : List (CType × Nat) :=
  (scalarKinds.flatMap fun k => [typeNumEntry 0 k false false, typeNumEntry 0 k true false]) ++
  ([1, 2, 3, 4].flatMap fun n => pointerKinds.flatMap fun k =>
    [typeNumEntry n k false false, typeNumEntry n k true false,
     typeNumEntry n k false true, typeNumEntry n k true true])

/-- Macro `__type_num(x)`: `_Generic((x), ..., default: 0)`. -/
def __type_num (t : CType) : Nat := generic (lvalueConv t) typeNumTable 0

/-- Top-level `const` qualifier of a type (an array type carries none of its own). -/
def topConst : CType → Bool
  | CType.scalar _ c => c
  | CType.aggregate _ c => c
  | CType.ptr _ q => q
  | CType.arr _ _ => false

set_option maxRecDepth 100000

/-! ## `_Generic` selection and the rows of the tables -/

/-- A `_Generic` selection returns the value listed for the controlling type when every
association with that type carries the same value. -/
theorem generic_of_mem {α : Type} (ctrl : CType) (l : List (CType × α)) (d v : α)
    (hmem : (ctrl, v) ∈ l) (huniq : ∀ w, (ctrl, w) ∈ l → w = v) :
    generic ctrl l d = v := by
  induction l with
  | nil => simp at hmem
  | cons a rest ih =>
    obtain ⟨t, w⟩ := a
    by_cases h : t = ctrl
    · subst h
      simpa [generic] using huniq w (by simp)
    · have hne : ¬ ctrl = t := fun e => h e.symm
      simp only [generic, h, if_false]
      apply ih
      · simpa [hne] using hmem
      · intro w' hw'
        exact huniq w' (List.mem_cons_of_mem _ hw')

/-- A `_Generic` selection returns its default when no association has the controlling
type. -/
theorem generic_of_not_mem {α : Type} (ctrl : CType) (l : List (CType × α)) (d : α)
    (h : ∀ w, (ctrl, w) ∉ l) : generic ctrl l d = d := by
  induction l with
  | nil => rfl
  | cons a rest ih =>
    obtain ⟨t, w⟩ := a
    have hne : ¬ t = ctrl := fun e => h w (by simp [e])
    simp only [generic, hne, if_false]
    exact ih fun w' hw' => h w' (List.mem_cons_of_mem _ hw')

theorem stars_ne_scalar_succ (n : Nat) (t : CType) (k : Kind) (c : Bool) :
    stars (n + 1) t ≠ CType.scalar k c := by
  simp [stars]

theorem stars_scalar_inj (n m : Nat) (k k' : Kind) (c c' : Bool) :
    stars n (CType.scalar k c) = stars m (CType.scalar k' c') ↔ n = m ∧ k = k' ∧ c = c' := by
  induction n generalizing m with
  | zero =>
    cases m with
    | zero => simp [stars]
    | succ m => simp [stars]
  | succ n ih =>
    cases m with
    | zero => simp [stars]
    | succ m => simp [stars, ih]

theorem mem_scalarKinds (k : Kind) : k ∈ scalarKinds ↔ k ≠ Kind.void := by
  cases k <;> decide

theorem mem_pointerKinds (k : Kind) : k ∈ pointerKinds := by
  cases k <;> decide

theorem mem_rowPair {α : Type} (n : Nat) (k : Kind) (v w : α) (t : CType) (x : α) :
    (t, x) ∈ rowPair n k v w ↔
      (t = stars n (CType.scalar k false) ∧ x = v) ∨
      (t = stars n (CType.scalar k true) ∧ x = w) := by
  simp [rowPair]

theorem mem_grid {α : Type} (ns : List Nat) (ks : List Kind) (f g : Nat → Kind → α)
    (t : CType) (x : α) :
    (t, x) ∈ (ns.flatMap fun n => ks.flatMap fun k => rowPair n k (f n k) (g n k)) ↔
      ∃ n k c, n ∈ ns ∧ k ∈ ks ∧ t = stars n (CType.scalar k c) ∧
        x = if c = true then g n k else f n k := by
  simp only [List.mem_flatMap, mem_rowPair]
  constructor
  · rintro ⟨n, hn, k, hk, h | h⟩
    · exact ⟨n, k, false, hn, hk, h.1, by simpa using h.2⟩
    · exact ⟨n, k, true, hn, hk, h.1, by simpa using h.2⟩
  · rintro ⟨n, k, c, hn, hk, ht, hx⟩
    refine ⟨n, hn, k, hk, ?_⟩
    cases c
    · exact Or.inl ⟨ht, by simpa using hx⟩
    · exact Or.inr ⟨ht, by simpa using hx⟩

theorem mem_column {α : Type} (ks : List Kind) (n : Nat) (f g : Kind → α)
    (t : CType) (x : α) :
    (t, x) ∈ (ks.flatMap fun k => rowPair n k (f k) (g k)) ↔
      ∃ k c, k ∈ ks ∧ t = stars n (CType.scalar k c) ∧
        x = if c = true then g k else f k := by
  have h := mem_grid [n] ks (fun _ k => f k) (fun _ k => g k) t x
  simp only [List.flatMap_cons, List.flatMap_nil, List.append_nil] at h
  rw [h]
  constructor
  · rintro ⟨m, k, c, hm, hk, ht, hx⟩
    simp at hm
    subst hm
    exact ⟨k, c, hk, ht, hx⟩
  · rintro ⟨k, c, hk, ht, hx⟩
    exact ⟨n, k, c, by simp, hk, ht, hx⟩

theorem mem_depthTable (t : CType) (v : Nat) :
    (t, v) ∈ depthTable ↔
      ∃ n k c, t = stars n (CType.scalar k c) ∧ v = n ∧ n ≤ 4 ∧ (k = Kind.void → 1 ≤ n) := by
  rw [depthTable, List.mem_append, mem_column, mem_grid]
  simp only [mem_scalarKinds, mem_pointerKinds, true_and, ite_self]
  constructor
  · rintro (⟨k, c, hk, ht, hv⟩ | ⟨n, k, c, hn, ht, hv⟩)
    · exact ⟨0, k, c, ht, hv, by omega, fun e => absurd e hk⟩
    · simp at hn
      exact ⟨n, k, c, ht, hv, by omega, fun _ => by omega⟩
  · rintro ⟨n, k, c, ht, hv, hn, hk⟩
    by_cases h0 : n = 0
    · subst h0
      exact Or.inl ⟨k, c, fun e => by have := hk e; omega, ht, hv⟩
    · exact Or.inr ⟨n, k, c, by simp; omega, ht, hv⟩

theorem mem_kindTable (k0 : Kind) (t : CType) (v : Nat) :
    (t, v) ∈ kindTable k0 ↔ ∃ n c, t = stars n (CType.scalar k0 c) ∧ v = 1 ∧ n ≤ 4 := by
  have h := mem_grid [0, 1, 2, 3, 4] [k0] (fun _ _ => 1) (fun _ _ => 1) t v
  simp only [List.flatMap_cons, List.flatMap_nil, List.append_nil, ite_self] at h
  simp only [kindTable, List.flatMap_cons, List.flatMap_nil, List.append_nil]
  rw [h]
  constructor
  · rintro ⟨n, k, c, hn, hk, ht, hv⟩
    simp at hn hk
    subst hk
    exact ⟨n, c, ht, hv, by omega⟩
  · rintro ⟨n, c, ht, hv, hn⟩
    exact ⟨n, k0, c, by simp; omega, by simp, ht, hv⟩

theorem mem_voidTable (t : CType) (v : Nat) :
    (t, v) ∈ voidTable ↔
      ∃ n c, t = stars n (CType.scalar Kind.void c) ∧ v = 1 ∧ 1 ≤ n ∧ n ≤ 5 := by
  have h := mem_grid [1, 2, 3, 4, 5] [Kind.void] (fun _ _ => 1) (fun _ _ => 1) t v
  simp only [List.flatMap_cons, List.flatMap_nil, List.append_nil, ite_self] at h
  simp only [voidTable, List.flatMap_cons, List.flatMap_nil, List.append_nil]
  rw [h]
  constructor
  · rintro ⟨n, k, c, hn, hk, ht, hv⟩
    simp at hn hk
    subst hk
    exact ⟨n, c, ht, hv, by omega, by omega⟩
  · rintro ⟨n, c, ht, hv, h1, hn⟩
    exact ⟨n, Kind.void, c, by simp; omega, by simp, ht, hv⟩

theorem mem_constAddrTable (t : CType) (v : Nat) :
    (t, v) ∈ constAddrTable ↔
      ∃ k c, t = stars 1 (CType.scalar k c) ∧ v = if c = true then 1 else 0 := by
  rw [constAddrTable, mem_column]
  simp only [mem_pointerKinds, true_and]

theorem mem_constValTable (t : CType) (v : Nat) :
    (t, v) ∈ constValTable ↔
      ∃ n k c, t = stars n (CType.scalar k c) ∧ (v = if c = true then 1 else 0) ∧
        1 ≤ n ∧ n ≤ 4 := by
  rw [constValTable, mem_grid]
  simp only [mem_pointerKinds, true_and]
  constructor
  · rintro ⟨n, k, c, hn, ht, hv⟩
    simp at hn
    exact ⟨n, k, c, ht, hv, by omega, by omega⟩
  · rintro ⟨n, k, c, ht, hv, h1, hn⟩
    exact ⟨n, k, c, by simp; omega, ht, hv⟩

theorem mem_sizeofTable (P : Platform) (t : CType) (v : Nat) :
    (t, v) ∈ sizeofTable P ↔
      ∃ n k c, t = stars n (CType.scalar k c) ∧ n ≤ 4 ∧ (k = Kind.void → 1 ≤ n) ∧
        v = if n = 0 then P.sizeofKind k else sizeofRowValue P k := by
  rw [sizeofTable, List.mem_append, mem_column, mem_grid]
  simp only [mem_scalarKinds, mem_pointerKinds, true_and, ite_self]
  constructor
  · rintro (⟨k, c, hk, ht, hv⟩ | ⟨n, k, c, hn, ht, hv⟩)
    · exact ⟨0, k, c, ht, by omega, fun e => absurd e hk, by simpa using hv⟩
    · simp at hn
      have h0 : n ≠ 0 := by omega
      exact ⟨n, k, c, ht, by omega, fun _ => by omega, by simpa [h0] using hv⟩
  · rintro ⟨n, k, c, ht, hn, hk, hv⟩
    by_cases h0 : n = 0
    · subst h0
      exact Or.inl ⟨k, c, fun e => by have := hk e; omega, ht, by simpa using hv⟩
    · exact Or.inr ⟨n, k, c, by simp; omega, ht, by simpa [h0] using hv⟩

theorem mem_constPtrTable (t : CType) (v : Nat) :
    (t, v) ∈ constPtrTable ↔
      (∃ n k c, t = stars n (CType.scalar k c) ∧ v = 0 ∧ 1 ≤ n ∧ n ≤ 5) ∨
      (∃ j k c, t = CType.ptr (CType.ptr (stars j (CType.scalar k c)) true) false ∧
        v = 1 ∧ j ≤ 3) := by
  rw [constPtrTable, List.mem_append, mem_column]
  simp only [List.mem_flatMap, constPtrRow, List.mem_append, mem_rowPair, mem_pointerKinds,
    true_and, ite_self, List.mem_cons, Prod.mk.injEq, List.mem_singleton, List.mem_nil_iff,
    or_false]
  constructor
  · rintro (⟨k, c, ht, hv⟩ | ⟨j, hj, k, (h | h) | (h | h)⟩)
    · exact Or.inl ⟨1, k, c, ht, hv, by omega, by omega⟩
    · exact Or.inl ⟨j + 2, k, false, h.1, h.2, by omega, by omega⟩
    · exact Or.inl ⟨j + 2, k, true, h.1, h.2, by omega, by omega⟩
    · exact Or.inr ⟨j, k, false, h.1, h.2, by omega⟩
    · exact Or.inr ⟨j, k, true, h.1, h.2, by omega⟩
  · rintro (⟨n, k, c, ht, hv, h1, hn⟩ | ⟨j, k, c, ht, hv, hj⟩)
    · by_cases h : n = 1
      · subst h
        exact Or.inl ⟨k, c, ht, hv⟩
      · obtain ⟨j, rfl⟩ : ∃ j, n = j + 2 := ⟨n - 2, by omega⟩
        refine Or.inr ⟨j, by omega, k, Or.inl ?_⟩
        cases c
        · exact Or.inl ⟨ht, hv⟩
        · exact Or.inr ⟨ht, hv⟩
    · refine Or.inr ⟨j, by omega, k, Or.inr ?_⟩
      cases c
      · exact Or.inl ⟨ht, hv⟩
      · exact Or.inr ⟨ht, hv⟩

theorem lvalueConv_declType (k : Kind) (n : Nat) (sc fc : Bool) :
    lvalueConv (declType k n sc fc) = stars n (CType.scalar k (decide (0 < n) && sc)) := by
  cases n <;> simp [declType, lvalueConv, stars]

theorem addrOf_declType_succ (k : Kind) (m : Nat) (sc fc : Bool) :
    addrOf (declType k (m + 1) sc fc) =
      CType.ptr (CType.ptr (stars m (CType.scalar k sc)) fc) false := rfl

theorem addrOf_declType_zero (k : Kind) (sc fc : Bool) :
    addrOf (declType k 0 sc fc) = stars 1 (CType.scalar k sc) := rfl

theorem stars_succ_succ (j : Nat) (t : CType) :
    stars (j + 2) t = CType.ptr (CType.ptr (stars j t) false) false := rfl

/-- Value of `__pointer_depth` on a chain of `n` unqualified pointers over a scalar. -/
theorem pointer_depth_of_stars (t : CType) (n : Nat) (k : Kind) (c : Bool)
    (ht : lvalueConv t = stars n (CType.scalar k c)) (hn : n ≤ 4)
    (hv : k = Kind.void → 1 ≤ n) : __pointer_depth t = n := by
  rw [__pointer_depth, ht]
  apply generic_of_mem
  · exact (mem_depthTable _ _).2 ⟨n, k, c, rfl, rfl, hn, hv⟩
  · intro w hw
    obtain ⟨n', k', c', ht', hw', -, -⟩ := (mem_depthTable _ _).1 hw
    rw [stars_scalar_inj] at ht'
    omega


theorem ptr_const_ne_stars (x : CType) (n : Nat) (k : Kind) (c : Bool) :
    CType.ptr (CType.ptr x true) false ≠ stars n (CType.scalar k c) := by
  match n with
  | 0 => simp [stars]
  | 1 => simp [stars]
  | j + 2 => simp [stars]

theorem isKind_eq_generic (k : Kind) (hk : k ≠ Kind.void) (t : CType) :
    isKind k t = generic (lvalueConv t) (kindTable k) 0 := by
  cases k <;> first | exact absurd rfl hk | rfl

/-- A non-void kind predicate is 1 on a chain of at most four unqualified pointers over its
own kind. -/
theorem isKind_of_stars (t : CType) (n : Nat) (k : Kind) (c : Bool) (hk : k ≠ Kind.void)
    (ht : lvalueConv t = stars n (CType.scalar k c)) (hn : n ≤ 4) : isKind k t = 1 := by
  rw [isKind_eq_generic k hk, ht]
  apply generic_of_mem
  · exact (mem_kindTable _ _ _).2 ⟨n, c, rfl, rfl, hn⟩
  · intro w hw
    obtain ⟨_, _, _, hw', _⟩ := (mem_kindTable _ _ _).1 hw
    exact hw'

/-- Every non-void kind predicate accepts every declared type of its kind, depth 0..4,
whatever the qualifiers of the scalar and of the variable. -/
theorem isKind_declType_of_ne_void (k : Kind) (n : Nat) (sc fc : Bool)
    (hk : k ≠ Kind.void) (hn : n ≤ 4) : isKind k (declType k n sc fc) = 1 :=
  isKind_of_stars _ n k _ hk (lvalueConv_declType k n sc fc) hn

/-- The predicate `__is_void` accepts every void pointer of depth 1..4 whose variable is not
itself `const`. -/
theorem is_void_declType_mutable (n : Nat) (sc : Bool) (h1 : 1 ≤ n) (hn : n ≤ 4) :
    __is_void (declType Kind.void n sc false) = 1 := by
  obtain ⟨m, rfl⟩ : ∃ m, n = m + 1 := ⟨n - 1, by omega⟩
  rw [__is_void, addrOf_declType_succ, ← stars_succ_succ]
  apply generic_of_mem
  · exact (mem_voidTable _ _).2 ⟨m + 2, sc, rfl, rfl, by omega, by omega⟩
  · intro w hw
    obtain ⟨_, _, _, hw', _⟩ := (mem_voidTable _ _).1 hw
    exact hw'

/-- The predicate `__is_void` rejects every void pointer whose variable is itself `const`:
the type of `&x` is then `void *..* const *`, which the table lacks. -/
theorem is_void_declType_const (n : Nat) (sc : Bool) (h1 : 1 ≤ n) :
    __is_void (declType Kind.void n sc true) = 0 := by
  obtain ⟨m, rfl⟩ : ∃ m, n = m + 1 := ⟨n - 1, by omega⟩
  rw [__is_void, addrOf_declType_succ]
  apply generic_of_not_mem
  intro w hw
  obtain ⟨n', c', ht, _⟩ := (mem_voidTable _ _).1 hw
  exact ptr_const_ne_stars _ _ _ _ ht

/-- The lookup of `__is_const` on `&x` reads the `const` flag of a scalar `x`. -/
theorem isConstAddr_scalar (k : Kind) (c : Bool) :
    isConstAddr (CType.scalar k c) = if c = true then 1 else 0 := by
  have e : addrOf (CType.scalar k c) = stars 1 (CType.scalar k c) := rfl
  rw [isConstAddr, e]
  apply generic_of_mem
  · exact (mem_constAddrTable _ _).2 ⟨k, c, rfl, rfl⟩
  · intro w hw
    obtain ⟨k', c', ht, hw'⟩ := (mem_constAddrTable _ _).1 hw
    rw [stars_scalar_inj] at ht
    rw [hw', ht.2.2]

/-- The lookup of `__is_const` on `&x` is 0 when `x` is a pointer. -/
theorem isConstAddr_ptr (x : CType) (q : Bool) : isConstAddr (CType.ptr x q) = 0 := by
  rw [isConstAddr]
  apply generic_of_not_mem
  intro w hw
  obtain ⟨k', c', ht, _⟩ := (mem_constAddrTable _ _).1 hw
  simp [addrOf, stars] at ht

/-- The lookup of `__is_const` on `x` reads the `const` flag of the scalar under one to four
unqualified pointers. -/
theorem isConstVal_of_stars (t : CType) (n : Nat) (k : Kind) (c : Bool)
    (ht : lvalueConv t = stars n (CType.scalar k c)) (h1 : 1 ≤ n) (hn : n ≤ 4) :
    isConstVal t = if c = true then 1 else 0 := by
  rw [isConstVal, ht]
  apply generic_of_mem
  · exact (mem_constValTable _ _).2 ⟨n, k, c, rfl, rfl, h1, hn⟩
  · intro w hw
    obtain ⟨n', k', c', ht', hw', _, _⟩ := (mem_constValTable _ _).1 hw
    rw [stars_scalar_inj] at ht'
    rw [hw', ht'.2.2]

/-- The lookup of `__is_const` on `x` is 0 when `x` is a scalar. -/
theorem isConstVal_scalar (k : Kind) (c : Bool) : isConstVal (CType.scalar k c) = 0 := by
  rw [isConstVal]
  apply generic_of_not_mem
  intro w hw
  obtain ⟨n', k', c', ht', _, h1, _⟩ := (mem_constValTable _ _).1 hw
  have e : lvalueConv (CType.scalar k c) = stars 0 (CType.scalar k false) := rfl
  rw [e, stars_scalar_inj] at ht'
  omega

/-- Value of `__is_const` on the supported types: the `const` flag of the scalar. -/
theorem const_flag_of_declType (k : Kind) (n : Nat) (sc fc : Bool) (hn : n ≤ 4) :
    __is_const (declType k n sc fc) = if sc = true then 1 else 0 := by
  cases n with
  | zero =>
    have e : declType k 0 sc fc = CType.scalar k sc := rfl
    rw [__is_const, e, isConstAddr_scalar, isConstVal_scalar]
    cases sc <;> simp
  | succ m =>
    have e : declType k (m + 1) sc fc = CType.ptr (stars m (CType.scalar k sc)) fc := rfl
    have hv := isConstVal_of_stars (declType k (m + 1) sc fc) (m + 1) k sc
      (by rw [lvalueConv_declType]; simp) (by omega) hn
    rw [__is_const, hv, e, isConstAddr_ptr]
    cases sc <;> simp

/-- Value of `__is_const_pointer` on the supported pointer types: the `const` flag of the
variable. -/
theorem const_pointer_flag_of_declType (k : Kind) (n : Nat) (sc fc : Bool)
    (h1 : 1 ≤ n) (hn : n ≤ 4) :
    __is_const_pointer (declType k n sc fc) = if fc = true then 1 else 0 := by
  obtain ⟨m, rfl⟩ : ∃ m, n = m + 1 := ⟨n - 1, by omega⟩
  rw [__is_const_pointer, addrOf_declType_succ]
  cases fc with
  | false =>
    apply generic_of_mem
    · exact (mem_constPtrTable _ _).2
        (Or.inl ⟨m + 2, k, sc, stars_succ_succ m _ ▸ rfl, rfl, by omega, by omega⟩)
    · intro w hw
      rcases (mem_constPtrTable _ _).1 hw with ⟨_, _, _, _, hw', _, _⟩ | ⟨_, _, _, ht, _, _⟩
      · simpa using hw'
      · simp at ht
  | true =>
    apply generic_of_mem
    · exact (mem_constPtrTable _ _).2 (Or.inr ⟨m, k, sc, rfl, rfl, by omega⟩)
    · intro w hw
      rcases (mem_constPtrTable _ _).1 hw with ⟨_, _, _, ht, _, _, _⟩ | ⟨_, _, _, _, hw', _⟩
      · exact absurd ht (ptr_const_ne_stars _ _ _ _)
      · simpa using hw'

/-- Value of `__sizeof` on a chain of at most four unqualified pointers over a non-void scalar is the
size of that scalar. -/
theorem sizeof_of_stars (P : Platform) (t : CType) (n : Nat) (k : Kind) (c : Bool)
    (hk : k ≠ Kind.void) (ht : lvalueConv t = stars n (CType.scalar k c)) (hn : n ≤ 4) :
    __sizeof P t = P.sizeofKind k := by
  rw [__sizeof, ht]
  apply generic_of_mem
  · refine (mem_sizeofTable P _ _).2 ⟨n, k, c, rfl, hn, fun e => absurd e hk, ?_⟩
    simp [sizeofRowValue, hk]
  · intro w hw
    obtain ⟨n', k', c', ht', _, _, hw'⟩ := (mem_sizeofTable P _ _).1 hw
    rw [stars_scalar_inj] at ht'
    obtain ⟨-, rfl, -⟩ := ht'
    simpa [sizeofRowValue, hk] using hw'

/-! ## Type classifier: the claims -/

/-- C4, at the failing input `void * const p`: `__is_void` returns 0 on it, although the
sibling predicate `__is_int` returns 1 on `int * const q`, and `__pointer_depth` and
`__is_const_pointer` both recognise `void * const`. -/
theorem is_void_const_pointer_unmatched :
    isKind Kind.void (declType Kind.void 1 false true) = 0 ∧
    isKind Kind.int (declType Kind.int 1 false true) = 1 ∧
    __pointer_depth (declType Kind.void 1 false true) = 1 ∧
    __is_const_pointer (declType Kind.void 1 false true) = 1 := by
  decide

/-- C5: `__pointer_depth` of a variable declared with kind `k`, `n` pointer levels
(`n` in 0..4, at least 1 for `void`) and any qualifier pattern is exactly `n`. -/
theorem pointer_depth_declType (k : Kind) (n : Nat) (sc fc : Bool)
    (hn : n ≤ 4) (hv : k = Kind.void → 1 ≤ n) :
    __pointer_depth (declType k n sc fc) = n :=
  pointer_depth_of_stars _ n k _ (lvalueConv_declType k n sc fc) hn hv

theorem pointer_depth_declType_witness :
    (2 ≤ 4) ∧ (Kind.int = Kind.void → 1 ≤ 2) ∧
    __pointer_depth (declType Kind.int 2 true true) = 2 :=
  ⟨by decide, by decide,
   pointer_depth_declType Kind.int 2 true true (by decide) (by decide)⟩

/-- C6: for each of the fifteen non-void kinds `k`, every depth `n` in 0..4 and every
qualifier pattern, `__sizeof` of a variable of that type is `sizeof(K)`, whatever `n` and
the qualifiers. -/
theorem sizeof_declType (P : Platform) (k : Kind) (n : Nat) (sc fc : Bool)
    (hk : k ≠ Kind.void) (hn : n ≤ 4) :
    __sizeof P (declType k n sc fc) = P.sizeofKind k :=
  sizeof_of_stars P _ n k _ hk (lvalueConv_declType k n sc fc) hn

theorem sizeof_declType_witness :
    Kind.ldouble ≠ Kind.void ∧ (3 ≤ 4) ∧
    __sizeof lp64 (declType Kind.ldouble 3 true false) = 16 :=
  ⟨by decide, by decide,
   sizeof_declType lp64 Kind.ldouble 3 true false (by decide) (by decide)⟩

/-- C7: `__is_const` is the disjunction of its two lookups (on the type of `&x` and on the
type of `x`), and on every supported type (any kind, depth 0..4, variable
const or not) it is 1 exactly when the referenced scalar is `const`, and 0
otherwise. -/
theorem is_const_declType (k : Kind) (n : Nat) (sc fc : Bool) (hn : n ≤ 4) :
    (__is_const (declType k n sc fc) = 1 ↔
      (isConstAddr (declType k n sc fc) ≠ 0 ∨ isConstVal (declType k n sc fc) ≠ 0)) ∧
    (__is_const (declType k n sc fc) = 1 ↔ sc = true) ∧
    (__is_const (declType k n sc fc) = 0 ↔ sc = false) := by
  refine ⟨?_, ?_, ?_⟩
  · rw [__is_const]
    by_cases h : isConstAddr (declType k n sc fc) ≠ 0 ∨ isConstVal (declType k n sc fc) ≠ 0
    · simp [h]
    · simp [h]
  · rw [const_flag_of_declType k n sc fc hn]
    cases sc <;> simp
  · rw [const_flag_of_declType k n sc fc hn]
    cases sc <;> simp

theorem is_const_declType_witness :
    (0 ≤ 4) ∧
    ((__is_const (declType Kind.uchar 0 true false) = 1 ↔
      (isConstAddr (declType Kind.uchar 0 true false) ≠ 0 ∨
        isConstVal (declType Kind.uchar 0 true false) ≠ 0)) ∧
     (__is_const (declType Kind.uchar 0 true false) = 1 ↔ true = true) ∧
     (__is_const (declType Kind.uchar 0 true false) = 0 ↔ true = false)) :=
  ⟨by decide, is_const_declType Kind.uchar 0 true false (by decide)⟩

/-- C8: for every kind and every depth 1..4, the declarations `K *^n`, `K *^n const`,
`const K *^n` and `const K *^n const` give `(__is_const, __is_const_pointer)` equal to
`(0,0)`, `(0,1)`, `(1,0)` and `(1,1)`; in particular `int ** const` gives
`__is_const_pointer = 1` and `__is_const = 0`. -/
theorem is_const_and_is_const_pointer_independent (k : Kind) (n : Nat)
    (h1 : 1 ≤ n) (hn : n ≤ 4) :
    (__is_const (declType k n false false) = 0 ∧
      __is_const_pointer (declType k n false false) = 0) ∧
    (__is_const (declType k n false true) = 0 ∧
      __is_const_pointer (declType k n false true) = 1) ∧
    (__is_const (declType k n true false) = 1 ∧
      __is_const_pointer (declType k n true false) = 0) ∧
    (__is_const (declType k n true true) = 1 ∧
      __is_const_pointer (declType k n true true) = 1) := by
  simp [const_flag_of_declType k n _ _ hn, const_pointer_flag_of_declType k n _ _ h1 hn]

theorem is_const_and_is_const_pointer_independent_witness :
    (1 ≤ 2) ∧ (2 ≤ 4) ∧
    __is_const (declType Kind.int 2 false true) = 0 ∧
    __is_const_pointer (declType Kind.int 2 false true) = 1 :=
  ⟨by decide, by decide,
   (is_const_and_is_const_pointer_independent Kind.int 2 (by decide) (by decide)).2.1⟩

/-! ## Allocation records -/

/-- The record built when `sizeof(x) != sizeof(void*)`: sizes read off the type. -/
theorem make_record_structural (P : Platform) (name : String) (t elem : CType) (p : Nat)
    (hd : deref t = some elem) (hf : sizeof P t ≠ P.sizeofPtr) (hz : sizeof P elem ≠ 0) :
    __make_allocated_record P name t p = Except.ok
      { name := name
        method := if 0 < p then methods.allocated else methods.fixed
        pointer_depth := __pointer_depth t % 256
        typesize := sizeof P elem
        totalsize := sizeof P t
        arraysize := sizeof P t / sizeof P elem } := by
  simp [__make_allocated_record, hd, __is_fixed_array, hf, __fixed_arraysize, udiv, hz,
    __is_allocated]

/-- The record built when `sizeof(x) == sizeof(void*)`: sizes read off the probe. -/
theorem make_record_probe (P : Platform) (name : String) (t elem : CType) (p : Nat)
    (hd : deref t = some elem) (hf : sizeof P t = P.sizeofPtr) (hz : __sizeof P elem ≠ 0) :
    __make_allocated_record P name t p = Except.ok
      { name := name
        method := if 0 < p then methods.allocated else methods.dynamic
        pointer_depth := __pointer_depth t % 256
        typesize := __sizeof P elem
        totalsize := p
        arraysize := p / __sizeof P elem } := by
  simp [__make_allocated_record, hd, __is_fixed_array, hf, udiv, hz, __is_allocated]

/-- Every record comes from one of the two branches, with a non-zero divisor. -/
theorem make_record_ok_inv (P : Platform) (name : String) (t : CType) (p : Nat)
    (r : allocated_record) (h : __make_allocated_record P name t p = Except.ok r) :
    ∃ elem, deref t = some elem ∧
      ((sizeof P t ≠ P.sizeofPtr ∧ sizeof P elem ≠ 0) ∨
       (sizeof P t = P.sizeofPtr ∧ __sizeof P elem ≠ 0)) := by
  unfold __make_allocated_record at h
  cases hd : deref t with
  | none => simp [hd] at h
  | some elem =>
    refine ⟨elem, rfl, ?_⟩
    by_cases hf : sizeof P t = P.sizeofPtr
    · refine Or.inr ⟨hf, fun hz => ?_⟩
      simp [hd, __is_fixed_array, hf, udiv, hz] at h
    · refine Or.inl ⟨hf, fun hz => ?_⟩
      simp [hd, __is_fixed_array, hf, __fixed_arraysize, udiv, hz] at h

/-- A value that can be dereferenced and whose size differs from a pointer's is an array. -/
theorem deref_of_not_pointer_sized (P : Platform) (t elem : CType)
    (hd : deref t = some elem) (hf : sizeof P t ≠ P.sizeofPtr) :
    ∃ n, t = CType.arr elem n := by
  cases t with
  | scalar k c => simp [deref] at hd
  | aggregate s c => simp [deref] at hd
  | ptr x q => simp [sizeof] at hf
  | arr e n =>
    simp only [deref, Option.some.injEq] at hd
    exact ⟨n, by rw [hd]⟩

/-! ## Allocation records: the claims -/

/-- C1: whenever `allocated_info(x)` is well typed and its selected divisor is not 0, it
builds a record whose method is `allocated` if the probe result `p` is positive, otherwise
`fixed` if `sizeof(x)` differs from `sizeof(void*)`, otherwise `dynamic`. -/
theorem allocated_info_method_ordered (P : Platform) (name : String) (t elem : CType)
    (p : Nat) (hd : deref t = some elem)
    (hz : (if sizeof P t ≠ P.sizeofPtr then sizeof P elem else __sizeof P elem) ≠ 0) :
    ∃ r, allocated_info P name t p = Except.ok r ∧
      r.method = if 0 < p then methods.allocated
                 else if sizeof P t ≠ P.sizeofPtr then methods.fixed else methods.dynamic := by
  by_cases hf : sizeof P t = P.sizeofPtr
  · simp only [hf, ne_eq, not_true_eq_false, if_false] at hz
    exact ⟨_, make_record_probe P name t elem p hd hf hz, by simp [hf]⟩
  · simp only [ne_eq, hf, not_false_eq_true, if_true] at hz
    refine ⟨_, make_record_structural P name t elem p hd hf hz, ?_⟩
    by_cases hp : 0 < p <;> simp [hf, hp]

theorem allocated_info_method_ordered_witness :
    deref (declType Kind.int 1 false false) = some (CType.scalar Kind.int false) ∧
    (if sizeof lp64 (declType Kind.int 1 false false) ≠ lp64.sizeofPtr
      then sizeof lp64 (CType.scalar Kind.int false)
      else __sizeof lp64 (CType.scalar Kind.int false)) ≠ 0 ∧
    ∃ r, allocated_info lp64 "p" (declType Kind.int 1 false false) 0 = Except.ok r ∧
      r.method = if 0 < 0 then methods.allocated
                 else if sizeof lp64 (declType Kind.int 1 false false) ≠ lp64.sizeofPtr
                   then methods.fixed else methods.dynamic :=
  ⟨rfl, by decide,
   allocated_info_method_ordered lp64 "p" (declType Kind.int 1 false false)
     (CType.scalar Kind.int false) 0 rfl (by decide)⟩

/-- C2 fails as stated: for the array `int a[9]` (36 bytes on LP64) living in a block whose
probe reports 40 usable bytes (as `*pa` after `int (*pa)[9] = malloc(sizeof *pa)`), the
method is `allocated` but `totalsize` is 36, not the probe result, and `arraysize` is 9,
not `40 / 4`. -/
theorem allocated_array_sizes_not_from_probe :
    ∃ r, allocated_info lp64 "a" (CType.arr (CType.scalar Kind.int false) 9) 40
        = Except.ok r ∧
      r.method = methods.allocated ∧ r.typesize = 4 ∧ r.totalsize = 36 ∧ r.arraysize = 9 ∧
      r.totalsize ≠ 40 ∧ r.arraysize ≠ 40 / r.typesize :=
  ⟨⟨"a", methods.allocated, 1, 4, 36, 9⟩, rfl, rfl, rfl, rfl, rfl, by decide, by decide⟩

/-- C2, amended: for every value `x` with `sizeof(x) == sizeof(void*)` (every pointer, and
an array only when its footprint is pointer-sized) whose element `*x` is, after lvalue
conversion, at most four unqualified pointer levels over a non-void kind `K` with
`sizeof(K) != 0`, a positive probe result `p` gives the record with method `allocated`,
`typesize = sizeof(K)`, `totalsize = p` and `arraysize = p / sizeof(K)`. -/
theorem allocated_info_allocated_sizes (P : Platform) (name : String) (t elem : CType)
    (m : Nat) (k : Kind) (c : Bool) (p : Nat)
    (hd : deref t = some elem) (hf : sizeof P t = P.sizeofPtr)
    (he : lvalueConv elem = stars m (CType.scalar k c)) (hk : k ≠ Kind.void) (hm : m ≤ 4)
    (hs : P.sizeofKind k ≠ 0) (hp : 0 < p) :
    allocated_info P name t p = Except.ok
      { name := name
        method := methods.allocated
        pointer_depth := __pointer_depth t % 256
        typesize := P.sizeofKind k
        totalsize := p
        arraysize := p / P.sizeofKind k } := by
  have hsz : __sizeof P elem = P.sizeofKind k := sizeof_of_stars P elem m k c hk he hm
  have h := make_record_probe P name t elem p hd hf (by rw [hsz]; exact hs)
  rw [allocated_info, h, hsz]
  simp [hp]

theorem allocated_info_allocated_sizes_witness :
    deref (declType Kind.int 1 false false) = some (CType.scalar Kind.int false) ∧
    sizeof lp64 (declType Kind.int 1 false false) = lp64.sizeofPtr ∧
    lvalueConv (CType.scalar Kind.int false) = stars 0 (CType.scalar Kind.int false) ∧
    Kind.int ≠ Kind.void ∧ (0 ≤ 4) ∧ lp64.sizeofKind Kind.int ≠ 0 ∧ (0 < 40) ∧
    allocated_info lp64 "p" (declType Kind.int 1 false false) 40
      = Except.ok ⟨"p", methods.allocated, 1, 4, 40, 10⟩ :=
  ⟨rfl, rfl, rfl, by decide, by decide, by decide, by decide,
   allocated_info_allocated_sizes lp64 "p" (declType Kind.int 1 false false)
     (CType.scalar Kind.int false) 0 Kind.int false 40 rfl rfl rfl (by decide) (by decide)
     (by decide) (by decide)⟩

/-- C3: for an in-place array of `n` elements of non-zero size `s = sizeof(*x)`, with
`n * s` different from `sizeof(void*)` and a probe result of 0, `allocated_info` builds the
record with method `fixed`, `typesize = s`, `totalsize = n * s` and `arraysize = n`
(the bound `n >= 1` of the claim is not needed). -/
theorem allocated_info_fixed_array (P : Platform) (name : String) (e : CType) (n : Nat)
    (hs : 0 < sizeof P e) (hne : n * sizeof P e ≠ P.sizeofPtr) :
    allocated_info P name (CType.arr e n) 0 = Except.ok
      { name := name
        method := methods.fixed
        pointer_depth := __pointer_depth (CType.arr e n) % 256
        typesize := sizeof P e
        totalsize := n * sizeof P e
        arraysize := n } := by
  have h := make_record_structural P name (CType.arr e n) e 0 rfl
    (by simpa [sizeof] using hne) (by omega)
  rw [allocated_info, h]
  simp [sizeof, Nat.mul_div_cancel _ hs]

theorem allocated_info_fixed_array_witness :
    0 < sizeof lp64 (CType.scalar Kind.short false) ∧
    8 * sizeof lp64 (CType.scalar Kind.short false) ≠ lp64.sizeofPtr ∧
    allocated_info lp64 "a" (CType.arr (CType.scalar Kind.short false) 8) 0
      = Except.ok ⟨"a", methods.fixed, 1, 2, 16, 8⟩ :=
  ⟨by decide, by decide,
   allocated_info_fixed_array lp64 "a" (CType.scalar Kind.short false) 8 (by decide)
     (by decide)⟩

/-- C9 fails as stated: for `long double *p` (16-byte elements on LP64) with a probe result
of 24, the method is `allocated`, `arraysize = 1`, `typesize = 16`, `totalsize = 24`, and
`1 * 16` is not 24. -/
theorem allocated_product_not_totalsize :
    ∃ r, allocated_info lp64 "p" (declType Kind.ldouble 1 false false) 24 = Except.ok r ∧
      r.method = methods.allocated ∧ r.arraysize = 1 ∧ r.typesize = 16 ∧ r.totalsize = 24 ∧
      r.arraysize * r.typesize ≠ r.totalsize :=
  ⟨⟨"p", methods.allocated, 1, 16, 24, 1⟩, rfl, rfl, rfl, rfl, rfl, by decide⟩

/-- C9, amended: every record built has
`arraysize * typesize = totalsize - totalsize % typesize`, hence at most `totalsize`; the
product equals `totalsize` whenever the method is `fixed`, and for method `allocated`
exactly when `typesize` divides `totalsize`. -/
theorem allocated_info_product (P : Platform) (name : String) (t : CType) (p : Nat)
    (r : allocated_record) (h : allocated_info P name t p = Except.ok r) :
    r.arraysize * r.typesize = r.totalsize - r.totalsize % r.typesize ∧
    r.arraysize * r.typesize ≤ r.totalsize ∧
    (r.method = methods.fixed → r.arraysize * r.typesize = r.totalsize) ∧
    (r.method = methods.allocated →
      (r.arraysize * r.typesize = r.totalsize ↔ r.typesize ∣ r.totalsize)) := by
  have key : ∀ a b : Nat, a / b * b = a - a % b := fun a b => by
    have := Nat.div_add_mod a b
    have := Nat.mul_comm (a / b) b
    omega
  have hle : ∀ a b : Nat, a / b * b ≤ a := fun a b => Nat.div_mul_le_self a b
  have hdvd : ∀ a b : Nat, a / b * b = a ↔ b ∣ a := fun a b =>
    ⟨fun e => ⟨a / b, by rw [Nat.mul_comm]; exact e.symm⟩, fun d => Nat.div_mul_cancel d⟩
  obtain ⟨elem, hd, ⟨hf, hz⟩ | ⟨hf, hz⟩⟩ := make_record_ok_inv P name t p r h
  · rw [allocated_info, make_record_structural P name t elem p hd hf hz] at h
    cases h
    obtain ⟨n, rfl⟩ := deref_of_not_pointer_sized P t elem hd hf
    have hdiv : sizeof P elem ∣ sizeof P (CType.arr elem n) := ⟨n, by simp [sizeof, Nat.mul_comm]⟩
    refine ⟨key _ _, hle _ _, fun _ => (hdvd _ _).2 hdiv, fun _ => hdvd _ _⟩
  · rw [allocated_info, make_record_probe P name t elem p hd hf hz] at h
    cases h
    refine ⟨key _ _, hle _ _, fun hm => ?_, fun _ => hdvd _ _⟩
    by_cases hp : 0 < p <;> simp [hp] at hm

theorem allocated_info_product_witness :
    allocated_info lp64 "p" (declType Kind.ldouble 1 false false) 24
      = Except.ok ⟨"p", methods.allocated, 1, 16, 24, 1⟩ ∧
    1 * 16 = 24 - 24 % 16 ∧ 1 * 16 ≤ 24 :=
  have h := allocated_info_product lp64 "p" (declType Kind.ldouble 1 false false) 24
    ⟨"p", methods.allocated, 1, 16, 24, 1⟩ rfl
  ⟨rfl, h.1, h.2.1⟩

/-- C10: in every record built by `allocated_info` whose `typesize` is positive,
`arraysize = totalsize / typesize`, whichever branch produced it. -/
theorem allocated_info_arraysize_quotient (P : Platform) (name : String) (t : CType)
    (p : Nat) (r : allocated_record) (h : allocated_info P name t p = Except.ok r)
    (hpos : 0 < r.typesize) : r.arraysize = r.totalsize / r.typesize := by
  obtain ⟨elem, hd, ⟨hf, hz⟩ | ⟨hf, hz⟩⟩ := make_record_ok_inv P name t p r h
  · rw [allocated_info, make_record_structural P name t elem p hd hf hz] at h
    cases h
    rfl
  · rw [allocated_info, make_record_probe P name t elem p hd hf hz] at h
    cases h
    rfl

theorem allocated_info_arraysize_quotient_witness :
    allocated_info lp64 "a" (CType.arr (CType.scalar Kind.short false) 8) 0
      = Except.ok ⟨"a", methods.fixed, 1, 2, 16, 8⟩ ∧ (0 < 2) ∧ 8 = 16 / 2 :=
  ⟨rfl, by decide,
   allocated_info_arraysize_quotient lp64 "a" (CType.arr (CType.scalar Kind.short false) 8)
     0 ⟨"a", methods.fixed, 1, 2, 16, 8⟩ rfl (by decide)⟩

/-! ## Selections that leave the default, and types outside the tables -/

/-- A `_Generic` selection yields either its default or a value listed for the controlling
type. -/
theorem generic_default_or_mem {α : Type} (ctrl : CType) (l : List (CType × α)) (d : α) :
    generic ctrl l d = d ∨ (ctrl, generic ctrl l d) ∈ l := by
  induction l with
  | nil => exact Or.inl rfl
  | cons a rest ih =>
    obtain ⟨t, w⟩ := a
    by_cases h : t = ctrl
    · subst h
      right
      simp [generic]
    · rcases ih with h0 | h1
      · left
        simpa [generic, h] using h0
      · right
        simp only [generic, h, if_false]
        exact List.mem_cons_of_mem _ h1

/-- A selection over a 0-default table that yields a non-zero value found it in the table. -/
theorem mem_of_generic_ne_zero (ctrl : CType) (l : List (CType × Nat))
    (h : generic ctrl l 0 ≠ 0) : (ctrl, generic ctrl l 0) ∈ l := by
  rcases generic_default_or_mem ctrl l 0 with h0 | h1
  · exact absurd h0 h
  · exact h1

theorem indirections_lvalueConv (t : CType) : indirections (lvalueConv t) = indirections t := by
  cases t <;> rfl

theorem indirections_stars (n : Nat) (k : Kind) (c : Bool) :
    indirections (stars n (CType.scalar k c)) = n := by
  induction n with
  | zero => rfl
  | succ n ih => simp [stars, indirections, ih]

theorem lvalueConv_stars (n : Nat) (k : Kind) (c : Bool) :
    lvalueConv (stars n (CType.scalar k c)) =
      stars n (CType.scalar k (decide (0 < n) && c)) := by
  cases n <;> simp [lvalueConv, stars]

/-- A non-zero `__pointer_depth` comes from a row: the converted type is a scalar kind under
that many unqualified pointers, at most four. -/
theorem pointer_depth_ne_zero_inv (t : CType) (h : __pointer_depth t ≠ 0) :
    ∃ k c, lvalueConv t = stars (__pointer_depth t) (CType.scalar k c) ∧
      __pointer_depth t ≤ 4 := by
  obtain ⟨n, k, c, ht, hv, hn, -⟩ := (mem_depthTable _ _).1 (mem_of_generic_ne_zero _ _ h)
  rw [__pointer_depth] at *
  exact ⟨k, c, by rw [hv]; exact ht, by omega⟩

/-- A non-zero `__is_const_pointer` is 1 and comes from a `const*` row: the variable is a
`const` pointer over at most three further unqualified pointers over a scalar kind. -/
theorem is_const_pointer_ne_zero_inv (t : CType) (h : __is_const_pointer t ≠ 0) :
    __is_const_pointer t = 1 ∧
    ∃ j k c, j ≤ 3 ∧ t = CType.ptr (stars j (CType.scalar k c)) true := by
  have hm := mem_of_generic_ne_zero _ _ h
  rw [__is_const_pointer] at h
  rcases (mem_constPtrTable _ _).1 hm with ⟨_, _, _, _, hv, _, _⟩ | ⟨j, k, c, ht, hv, hj⟩
  · exact absurd hv h
  · refine ⟨hv, j, k, c, hj, ?_⟩
    simpa [addrOf] using ht

/-- A non-zero non-void kind predicate comes from a row of its own kind. -/
theorem isKind_ne_zero_inv (k : Kind) (hk : k ≠ Kind.void) (t : CType)
    (h : isKind k t ≠ 0) : ∃ n c, n ≤ 4 ∧ lvalueConv t = stars n (CType.scalar k c) := by
  rw [isKind_eq_generic k hk] at h
  obtain ⟨n, c, ht, -, hn⟩ := (mem_kindTable _ _ _).1 (mem_of_generic_ne_zero _ _ h)
  exact ⟨n, c, hn, ht⟩

/-- A non-zero `__is_void` comes from a row: the type is `void` under at most four
unqualified pointers. -/
theorem is_void_ne_zero_inv (t : CType) (h : __is_void t ≠ 0) :
    ∃ j c, j ≤ 4 ∧ t = stars j (CType.scalar Kind.void c) := by
  obtain ⟨n, c, ht, -, h1, hn⟩ := (mem_voidTable _ _).1 (mem_of_generic_ne_zero _ _ h)
  obtain ⟨j, rfl⟩ : ∃ j, n = j + 1 := ⟨n - 1, by omega⟩
  refine ⟨j, c, by omega, ?_⟩
  simpa [addrOf, stars] using ht

/-- Whatever the kind, a non-zero kind predicate means that the converted type is that kind
under at most four unqualified pointers. -/
theorem isKind_ne_zero_form (k : Kind) (t : CType) (h : isKind k t ≠ 0) :
    ∃ n c, n ≤ 4 ∧ lvalueConv t = stars n (CType.scalar k c) := by
  by_cases hk : k = Kind.void
  · subst hk
    obtain ⟨j, c, hj, rfl⟩ := is_void_ne_zero_inv t h
    exact ⟨j, _, hj, lvalueConv_stars j Kind.void c⟩
  · exact isKind_ne_zero_inv k hk t h

/-- Value of `__sizeof` on `void` under one to four unqualified pointers: the 0 of the
`void*` rows. -/
theorem sizeof_void_of_stars (P : Platform) (t : CType) (n : Nat) (c : Bool)
    (ht : lvalueConv t = stars n (CType.scalar Kind.void c)) (h1 : 1 ≤ n) (hn : n ≤ 4) :
    __sizeof P t = 0 := by
  rw [__sizeof, ht]
  apply generic_of_mem
  · refine (mem_sizeofTable P _ _).2 ⟨n, Kind.void, c, rfl, hn, fun _ => h1, ?_⟩
    have h0 : n ≠ 0 := by omega
    simp [sizeofRowValue, h0]
  · intro w hw
    obtain ⟨n', k', c', ht', _, _, hw'⟩ := (mem_sizeofTable P _ _).1 hw
    rw [stars_scalar_inj] at ht'
    obtain ⟨rfl, rfl, -⟩ := ht'
    have h0 : n ≠ 0 := by omega
    simpa [sizeofRowValue, h0] using hw'

/-- Value of `__sizeof` on an expression of type `void` (the `*x` of a `void *x`): no row
lists `void`, so the default `sizeof(void)` is selected. -/
theorem sizeof_void_scalar (P : Platform) (c : Bool) :
    __sizeof P (CType.scalar Kind.void c) = P.sizeofKind Kind.void := by
  rw [__sizeof]
  apply generic_of_not_mem
  intro w hw
  obtain ⟨n, k, c', ht, -, hv, -⟩ := (mem_sizeofTable P _ _).1 hw
  have e : lvalueConv (CType.scalar Kind.void c) = stars 0 (CType.scalar Kind.void false) :=
    rfl
  rw [e, stars_scalar_inj] at ht
  obtain ⟨rfl, rfl, -⟩ := ht
  exact absurd (hv rfl) (by decide)

/-- No record is built when `sizeof(x) == sizeof(void*)` and `__sizeof(*x)` is 0: the
quotient `alloc_sizeof(x) / __sizeof(*x)` has no value. -/
theorem make_record_probe_zero_divisor (P : Platform) (name : String) (t elem : CType)
    (p : Nat) (hd : deref t = some elem) (hf : sizeof P t = P.sizeofPtr)
    (hz : __sizeof P elem = 0) :
    __make_allocated_record P name t p = Except.error BuildError.divByZero := by
  simp [__make_allocated_record, hd, __is_fixed_array, hf, udiv, hz]

/-- On a `void` pointer of depth 2..4 no record is built, whatever the platform, the
qualifiers and the probe result. -/
theorem allocated_info_void_pointer_fails (P : Platform) (name : String) (n : Nat)
    (sc fc : Bool) (p : Nat) (h2 : 2 ≤ n) (hn : n ≤ 4) :
    allocated_info P name (declType Kind.void n sc fc) p
      = Except.error BuildError.divByZero := by
  obtain ⟨m, rfl⟩ : ∃ m, n = m + 1 := ⟨n - 1, by omega⟩
  refine make_record_probe_zero_divisor P name _ (stars m (CType.scalar Kind.void sc)) p
    rfl rfl ?_
  exact sizeof_void_of_stars P _ m _ (lvalueConv_stars m Kind.void sc) (by omega) (by omega)

theorem innerPtrConst_ptr_ptr (y : CType) (q' q : Bool) :
    innerPtrConst (CType.ptr (CType.ptr y q') q) = innerPtrConst (CType.ptr y q') := rfl

theorem innerPtrConst_stars_succ (j : Nat) (k : Kind) (c : Bool) :
    innerPtrConst (stars (j + 1) (CType.scalar k c)) = false := by
  induction j with
  | zero => rfl
  | succ j ih =>
    have e : stars (j + 1 + 1) (CType.scalar k c)
        = CType.ptr (CType.ptr (stars j (CType.scalar k c)) false) false := rfl
    have e' : stars (j + 1) (CType.scalar k c)
        = CType.ptr (stars j (CType.scalar k c)) false := rfl
    rw [e, innerPtrConst_ptr_ptr]
    rw [e'] at ih
    exact ih

/-- The types outside the tables of the kind predicates: five or more indirection levels. -/
theorem not_stars_of_five_le (t : CType) (h : 5 ≤ indirections t) (k : Kind) (n : Nat)
    (c : Bool) (hn : n ≤ 4) : lvalueConv t ≠ stars n (CType.scalar k c) := by
  intro e
  have := congrArg indirections e
  rw [indirections_lvalueConv, indirections_stars] at this
  omega

/-! ## Second group of claims -/

/-- C11, at the failing input `void **p` with a probe result of 0: `__sizeof(*p)` selects
the row `void*: 0`, the divisor of `arraysize` is 0 and no record is built, although
`__pointer_depth` recognises the type as a supported pointer of depth 2. -/
theorem allocated_info_void_double_pointer_zero_divisor :
    __pointer_depth (declType Kind.void 2 false false) = 2 ∧
    deref (declType Kind.void 2 false false)
      = some (CType.ptr (CType.scalar Kind.void false) false) ∧
    __sizeof lp64 (CType.ptr (CType.scalar Kind.void false) false) = 0 ∧
    allocated_info lp64 "p" (declType Kind.void 2 false false) 0
      = Except.error BuildError.divByZero :=
  ⟨by decide, rfl, by decide, rfl⟩

/-- C12: for every pointer `x` (so `sizeof(x) == sizeof(void*)`) with a probe result of 0
and `__sizeof(*x)` not 0, `allocated_info` builds the record with method `dynamic`,
`typesize = __sizeof(*x)`, `totalsize = 0` and `arraysize = 0`. -/
theorem allocated_info_dynamic_pointer (P : Platform) (name : String) (elem : CType)
    (q : Bool) (hz : __sizeof P elem ≠ 0) :
    sizeof P (CType.ptr elem q) = P.sizeofPtr ∧
    allocated_info P name (CType.ptr elem q) 0 = Except.ok
      { name := name
        method := methods.dynamic
        pointer_depth := __pointer_depth (CType.ptr elem q) % 256
        typesize := __sizeof P elem
        totalsize := 0
        arraysize := 0 } := by
  refine ⟨rfl, ?_⟩
  rw [allocated_info, make_record_probe P name (CType.ptr elem q) elem 0 rfl rfl hz]
  simp

theorem allocated_info_dynamic_pointer_witness :
    __sizeof lp64 (CType.scalar Kind.int false) ≠ 0 ∧
    sizeof lp64 (CType.ptr (CType.scalar Kind.int false) false) = lp64.sizeofPtr ∧
    allocated_info lp64 "p" (CType.ptr (CType.scalar Kind.int false) false) 0
      = Except.ok ⟨"p", methods.dynamic, 1, 4, 0, 0⟩ :=
  ⟨by decide,
   allocated_info_dynamic_pointer lp64 "p" (CType.scalar Kind.int false) false (by decide)⟩

/-- C13: for an in-place array whose footprint `n * sizeof(*x)` equals `sizeof(void*)`,
`__is_fixed_array` is false, no record built has method `fixed`, and whenever
`__sizeof(*x)` is not 0 the record built has method `allocated` for a positive probe result
`p` and `dynamic` otherwise, `totalsize = p` and `arraysize = p / __sizeof(*x)`. -/
theorem allocated_info_pointer_sized_array (P : Platform) (name : String) (e : CType)
    (n p : Nat) (hsz : n * sizeof P e = P.sizeofPtr) :
    __is_fixed_array P (CType.arr e n) = false ∧
    (∀ r, allocated_info P name (CType.arr e n) p = Except.ok r →
      r.method ≠ methods.fixed) ∧
    (__sizeof P e ≠ 0 →
      allocated_info P name (CType.arr e n) p = Except.ok
        { name := name
          method := if 0 < p then methods.allocated else methods.dynamic
          pointer_depth := __pointer_depth (CType.arr e n) % 256
          typesize := __sizeof P e
          totalsize := p
          arraysize := p / __sizeof P e }) := by
  have hf : sizeof P (CType.arr e n) = P.sizeofPtr := by simpa [sizeof] using hsz
  refine ⟨by simp [__is_fixed_array, hf], ?_, fun hz => ?_⟩
  · intro r hr
    obtain ⟨elem, hd, ⟨hne, -⟩ | ⟨-, hz⟩⟩ := make_record_ok_inv P name _ p r hr
    · exact absurd hf hne
    · rw [allocated_info, make_record_probe P name _ elem p hd hf hz] at hr
      cases hr
      by_cases hp : 0 < p <;> simp [hp]
  · exact make_record_probe P name (CType.arr e n) e p rfl hf hz

theorem allocated_info_pointer_sized_array_witness :
    8 * sizeof lp64 (CType.scalar Kind.char false) = lp64.sizeofPtr ∧
    __is_fixed_array lp64 (CType.arr (CType.scalar Kind.char false) 8) = false ∧
    allocated_info lp64 "a" (CType.arr (CType.scalar Kind.char false) 8) 0
      = Except.ok ⟨"a", methods.dynamic, 1, 1, 0, 0⟩ :=
  have h := allocated_info_pointer_sized_array lp64 "a" (CType.scalar Kind.char false) 8 0
    (by decide)
  ⟨by decide, h.1, h.2.2 (by decide)⟩

/-- C14: for a pointer of depth 1..4 to a non-void kind of size `s > 0`, a positive probe
result `p` with `p >= m * s` gives a record with method `allocated` and `arraysize >= m`;
ten four-byte ints with `p = 40` give `arraysize >= 10`. -/
theorem allocated_info_count_lower_bound (P : Platform) (name : String) (k : Kind)
    (n : Nat) (sc fc : Bool) (m p : Nat) (hk : k ≠ Kind.void) (h1 : 1 ≤ n) (hn : n ≤ 4)
    (hs : 0 < P.sizeofKind k) (hp : 0 < p) (hge : m * P.sizeofKind k ≤ p) :
    ∃ r, allocated_info P name (declType k n sc fc) p = Except.ok r ∧
      r.method = methods.allocated ∧ m ≤ r.arraysize := by
  obtain ⟨j, rfl⟩ : ∃ j, n = j + 1 := ⟨n - 1, by omega⟩
  have hsz : __sizeof P (stars j (CType.scalar k sc)) = P.sizeofKind k :=
    sizeof_of_stars P _ j k _ hk (lvalueConv_stars j k sc) (by omega)
  have h := make_record_probe P name (declType k (j + 1) sc fc)
    (stars j (CType.scalar k sc)) p rfl rfl (by rw [hsz]; omega)
  refine ⟨_, h, by simp [hp], ?_⟩
  rw [hsz]
  exact (Nat.le_div_iff_mul_le hs).2 hge

theorem allocated_info_count_lower_bound_witness :
    Kind.int ≠ Kind.void ∧ (1 ≤ 1) ∧ (1 ≤ 4) ∧ 0 < lp64.sizeofKind Kind.int ∧ (0 < 40) ∧
    10 * lp64.sizeofKind Kind.int ≤ 40 ∧
    ∃ r, allocated_info lp64 "p" (declType Kind.int 1 false false) 40 = Except.ok r ∧
      r.method = methods.allocated ∧ 10 ≤ r.arraysize :=
  ⟨by decide, by decide, by decide, by decide, by decide, by decide,
   allocated_info_count_lower_bound lp64 "p" Kind.int 1 false false 10 40 (by decide)
     (by decide) (by decide) (by decide) (by decide) (by decide)⟩

/-- C15: on every type with five or more indirection levels, whatever the kind and the
qualifiers at any level, `__pointer_depth` is 0. -/
theorem pointer_depth_beyond_four (t : CType) (h : 5 ≤ indirections t) :
    __pointer_depth t = 0 := by
  by_contra h0
  obtain ⟨k, c, ht, hle⟩ := pointer_depth_ne_zero_inv t h0
  exact not_stars_of_five_le t h k _ c hle ht

theorem pointer_depth_beyond_four_witness :
    5 ≤ indirections (declType Kind.int 5 true true) ∧
    __pointer_depth (declType Kind.int 5 true true) = 0 :=
  ⟨by decide, pointer_depth_beyond_four (declType Kind.int 5 true true) (by decide)⟩

/-- C16 fails as stated: `int * const p` has reported depth 1, but its address `&p`, of
type `int * const *`, has reported depth 0, not 2. -/
theorem address_of_const_pointer_depth_zero :
    __pointer_depth (declType Kind.int 1 false true) = 1 ∧
    __pointer_depth (addrOf (declType Kind.int 1 false true)) = 0 := by
  decide

/-- C16, amended: for a supported type of depth `n` in 0..3 (at least 1 for `void`), the
address `&x` has reported depth exactly one more than `x` when `x` is a scalar or a pointer
variable that is not itself `const`; when `x` is a `const` pointer variable the type of
`&x` has a `const` intermediate pointer and its reported depth is 0. -/
theorem pointer_depth_address_of (k : Kind) (n : Nat) (sc fc : Bool) (hn : n ≤ 3)
    (hv : k = Kind.void → 1 ≤ n) :
    __pointer_depth (declType k n sc fc) = n ∧
    __pointer_depth (addrOf (declType k n sc fc)) =
      if n = 0 ∨ fc = false then __pointer_depth (declType k n sc fc) + 1 else 0 := by
  have hd : __pointer_depth (declType k n sc fc) = n :=
    pointer_depth_of_stars _ n k _ (lvalueConv_declType k n sc fc) (by omega) hv
  refine ⟨hd, ?_⟩
  rw [hd]
  cases n with
  | zero =>
    simp only [true_or, if_true]
    exact pointer_depth_of_stars _ 1 k sc rfl (by omega) (fun _ => by omega)
  | succ m =>
    cases fc with
    | false =>
      simp only [or_true, if_true]
      exact pointer_depth_of_stars _ (m + 2) k sc rfl (by omega) (fun _ => by omega)
    | true =>
      have hne : ¬ (m + 1 = 0 ∨ true = false) := by simp
      rw [if_neg hne, __pointer_depth]
      apply generic_of_not_mem
      intro w hw
      obtain ⟨n', k', c', ht, -⟩ := (mem_depthTable _ _).1 hw
      exact ptr_const_ne_stars _ _ _ _ ht

theorem pointer_depth_address_of_witness :
    (1 ≤ 3) ∧ (Kind.void = Kind.void → 1 ≤ 1) ∧
    __pointer_depth (declType Kind.void 1 true false) = 1 ∧
    __pointer_depth (addrOf (declType Kind.void 1 true false)) =
      if 1 = 0 ∨ false = false then __pointer_depth (declType Kind.void 1 true false) + 1
      else 0 :=
  ⟨by decide, by decide,
   pointer_depth_address_of Kind.void 1 true false (by decide) (by decide)⟩

/-- C17: on every type on which `__pointer_depth` is 0, scalar or outside the tables,
`__is_const_pointer` is 0. -/
theorem is_const_pointer_zero_of_depth_zero (t : CType) (h : __pointer_depth t = 0) :
    __is_const_pointer t = 0 := by
  by_contra hne
  obtain ⟨-, j, k, c, hj, rfl⟩ := is_const_pointer_ne_zero_inv t hne
  have hd := pointer_depth_of_stars (CType.ptr (stars j (CType.scalar k c)) true) (j + 1)
    k c rfl (by omega) (fun _ => by omega)
  omega

theorem is_const_pointer_zero_of_depth_zero_witness :
    __pointer_depth (CType.aggregate 12 true) = 0 ∧
    __is_const_pointer (CType.aggregate 12 true) = 0 :=
  ⟨by decide, is_const_pointer_zero_of_depth_zero (CType.aggregate 12 true) (by decide)⟩

/-- C18 fails as stated: on `int ** const p` the predicate `__is_const_pointer` is 1, yet
the pointer level adjacent to the scalar is not `const`; the qualified level is the
outermost one, the variable itself. -/
theorem is_const_pointer_inner_level_mutable :
    __is_const_pointer (declType Kind.int 2 false true) = 1 ∧
    innerPtrConst (declType Kind.int 2 false true) = false ∧
    outerPtrConst (declType Kind.int 2 false true) = true := by
  decide

/-- C18, amended: on every type, `__is_const_pointer = 1` implies that the outermost
pointer level, the variable itself, is `const`, with one to four indirection levels; the
pointer level adjacent to the scalar is then `const` exactly when the depth is 1. -/
theorem is_const_pointer_outer_level (t : CType) (h : __is_const_pointer t = 1) :
    outerPtrConst t = true ∧ 1 ≤ indirections t ∧ indirections t ≤ 4 ∧
    (innerPtrConst t = true ↔ indirections t = 1) := by
  obtain ⟨-, j, k, c, hj, rfl⟩ := is_const_pointer_ne_zero_inv t (by omega)
  have hi : indirections (CType.ptr (stars j (CType.scalar k c)) true) = j + 1 := by
    simp [indirections, indirections_stars]
  refine ⟨rfl, by omega, by omega, ?_⟩
  rw [hi]
  cases j with
  | zero => simp [innerPtrConst, stars]
  | succ i =>
    have e := innerPtrConst_stars_succ i k c
    have e' : stars (i + 1) (CType.scalar k c)
        = CType.ptr (stars i (CType.scalar k c)) false := rfl
    rw [e'] at e
    rw [e', innerPtrConst_ptr_ptr, e]
    simp

theorem is_const_pointer_outer_level_witness :
    __is_const_pointer (declType Kind.int 1 false true) = 1 ∧
    outerPtrConst (declType Kind.int 1 false true) = true ∧
    1 ≤ indirections (declType Kind.int 1 false true) ∧
    indirections (declType Kind.int 1 false true) ≤ 4 ∧
    (innerPtrConst (declType Kind.int 1 false true) = true ↔
      indirections (declType Kind.int 1 false true) = 1) :=
  ⟨by decide, is_const_pointer_outer_level (declType Kind.int 1 false true) (by decide)⟩

/-- C19: on every type whatsoever, at most one of the sixteen kind predicates is 1. -/
theorem isKind_unique (t : CType) (k1 k2 : Kind) (h1 : isKind k1 t = 1)
    (h2 : isKind k2 t = 1) : k1 = k2 := by
  obtain ⟨n1, c1, -, e1⟩ := isKind_ne_zero_form k1 t (by omega)
  obtain ⟨n2, c2, -, e2⟩ := isKind_ne_zero_form k2 t (by omega)
  rw [e1, stars_scalar_inj] at e2
  exact e2.2.1

theorem isKind_unique_witness :
    isKind Kind.uint (declType Kind.uint 3 true true) = 1 ∧ Kind.uint = Kind.uint :=
  ⟨by decide,
   isKind_unique (declType Kind.uint 3 true true) Kind.uint Kind.uint (by decide)
     (by decide)⟩

/-- A type whose converted form is a kind under unqualified pointers is a declared form
`[const] K *..* [const]` or a one-dimensional array that decays to one. -/
theorem closed_form_of_stars (t : CType) (n : Nat) (k : Kind) (c : Bool)
    (h : lvalueConv t = stars n (CType.scalar k c)) :
    (∃ sc fc, t = declType k n sc fc) ∨
    (∃ m len, n = m + 1 ∧ t = CType.arr (stars m (CType.scalar k c)) len) := by
  cases t with
  | scalar k' c' =>
    cases n with
    | zero =>
      simp only [lvalueConv, stars, CType.scalar.injEq] at h
      exact Or.inl ⟨c', false, by rw [h.1]; rfl⟩
    | succ m => simp [lvalueConv, stars] at h
  | aggregate s' c' => cases n <;> simp [lvalueConv, stars] at h
  | ptr x q =>
    cases n with
    | zero => simp [lvalueConv, stars] at h
    | succ m =>
      simp only [lvalueConv, stars, CType.ptr.injEq, and_true] at h
      exact Or.inl ⟨c, q, by rw [h]; rfl⟩
  | arr e len =>
    cases n with
    | zero => simp [lvalueConv, stars] at h
    | succ m =>
      simp only [lvalueConv, stars, CType.ptr.injEq, and_true] at h
      exact Or.inr ⟨m, len, rfl, by rw [h]⟩

/-- An array of a non-void kind under at most three unqualified pointers decays to a
supported pointer and is classified under that kind: `int a[3]` is inspected as `int *`. -/
theorem isKind_array_decay (k : Kind) (m : Nat) (c : Bool) (len : Nat)
    (hk : k ≠ Kind.void) (hm : m ≤ 3) :
    isKind k (CType.arr (stars m (CType.scalar k c)) len) = 1 :=
  isKind_of_stars _ (m + 1) k c hk rfl (by omega)

/-- The sixteen kind predicates on `int *****p`, on a 12-byte struct, on `int a[2][3]` and
on `int * const *p`: all 0. -/
theorem isKind_zero_examples (k : Kind) :
    isKind k (declType Kind.int 5 false false) = 0 ∧
    isKind k (CType.aggregate 12 false) = 0 ∧
    isKind k (CType.arr (CType.arr (CType.scalar Kind.int false) 3) 2) = 0 ∧
    isKind k (CType.ptr (CType.ptr (CType.scalar Kind.int false) true) false) = 0 := by
  cases k <;> decide

/-- C20: on every type outside the closed set, that is, neither of the form `[const] K`
followed by at most four pointer levels with an optionally `const` final pointer, nor a
one-dimensional array that decays to such a pointer (so on five or more levels, aggregates,
arrays of arrays and chains with a `const` intermediate pointer), all sixteen kind
predicates are 0. -/
theorem isKind_zero_outside (t : CType)
    (hdecl : ∀ k n sc fc, n ≤ 4 → t ≠ declType k n sc fc)
    (harr : ∀ k m c len, m ≤ 3 → t ≠ CType.arr (stars m (CType.scalar k c)) len)
    (k : Kind) : isKind k t = 0 := by
  by_contra hne
  obtain ⟨n, c, hn, e⟩ := isKind_ne_zero_form k t hne
  rcases closed_form_of_stars t n k c e with ⟨sc, fc, ht⟩ | ⟨m, len, hm, ht⟩
  · exact hdecl k n sc fc hn ht
  · exact harr k m c len (by omega) ht

theorem isKind_zero_outside_witness :
    (∀ k n sc fc, n ≤ 4 →
      CType.ptr (CType.ptr (CType.scalar Kind.int false) true) false
        ≠ declType k n sc fc) ∧
    (∀ k m c len, m ≤ 3 →
      CType.ptr (CType.ptr (CType.scalar Kind.int false) true) false
        ≠ CType.arr (stars m (CType.scalar k c)) len) ∧
    isKind Kind.int (CType.ptr (CType.ptr (CType.scalar Kind.int false) true) false) = 0 :=
  have hdecl : ∀ k n sc fc, n ≤ 4 →
      CType.ptr (CType.ptr (CType.scalar Kind.int false) true) false
        ≠ declType k n sc fc := fun k n sc fc _ h => by
    match n with
    | 0 => simp [declType] at h
    | 1 => simp [declType, stars] at h
    | m + 2 => simp [declType, stars] at h
  have harr : ∀ k m c len, m ≤ 3 →
      CType.ptr (CType.ptr (CType.scalar Kind.int false) true) false
        ≠ CType.arr (stars m (CType.scalar k c)) len := fun k m c len _ h => by
    simp at h
  ⟨hdecl, harr,
   isKind_zero_outside (CType.ptr (CType.ptr (CType.scalar Kind.int false) true) false)
     hdecl harr Kind.int⟩

/-! ## Facts on types outside the tables, labels and type numbers -/

theorem indirections_declType (k : Kind) (n : Nat) (sc fc : Bool) :
    indirections (declType k n sc fc) = n := by
  cases n with
  | zero => rfl
  | succ m => simp [declType, indirections, indirections_stars]

/-- The reported depth never exceeds 4. -/
theorem pointer_depth_le_four (t : CType) : __pointer_depth t ≤ 4 := by
  by_cases h : __pointer_depth t = 0
  · omega
  · obtain ⟨_, _, _, hle⟩ := pointer_depth_ne_zero_inv t h
    exact hle

/-- A non-zero lookup of `__is_const` on `&x` means that `x` is a scalar. -/
theorem isConstAddr_ne_zero_inv (t : CType) (h : isConstAddr t ≠ 0) :
    ∃ k c, t = CType.scalar k c := by
  obtain ⟨k, c, ht, -⟩ := (mem_constAddrTable _ _).1 (mem_of_generic_ne_zero _ _ h)
  exact ⟨k, c, by simpa [addrOf, stars] using ht⟩

/-- A non-zero lookup of `__is_const` on `x` comes from a row. -/
theorem isConstVal_ne_zero_inv (t : CType) (h : isConstVal t ≠ 0) :
    ∃ n k c, n ≤ 4 ∧ lvalueConv t = stars n (CType.scalar k c) := by
  obtain ⟨n, k, c, ht, -, -, hn⟩ := (mem_constValTable _ _).1 (mem_of_generic_ne_zero _ _ h)
  exact ⟨n, k, c, hn, ht⟩

/-- Outside the rows, `__sizeof` is the default `sizeof(x)`. -/
theorem sizeof_default_outside (P : Platform) (t : CType)
    (h : ∀ k n c, n ≤ 4 → lvalueConv t ≠ stars n (CType.scalar k c)) :
    __sizeof P t = sizeof P t := by
  rw [__sizeof]
  apply generic_of_not_mem
  intro w hw
  obtain ⟨n, k, c, ht, hn, -, -⟩ := (mem_sizeofTable P _ _).1 hw
  exact h k n c hn ht

/-- Two kind predicates cannot both be non-zero on the same type. -/
theorem isKind_eq_zero_of_ne (t : CType) (k k' : Kind) (h : isKind k t ≠ 0) (hne : k' ≠ k) :
    isKind k' t = 0 := by
  by_contra h'
  obtain ⟨n1, c1, -, e1⟩ := isKind_ne_zero_form k t h
  obtain ⟨n2, c2, -, e2⟩ := isKind_ne_zero_form k' t h'
  rw [e1, stars_scalar_inj] at e2
  exact hne e2.2.1.symm

/-- The label when the kind predicate of `k` answers: the other fifteen slots are empty. -/
theorem typeLabel_of_kind (t : CType) (k : Kind) (h : isKind k t ≠ 0) :
    typeLabel t =
      (if __is_const t ≠ 0 then "const " else "") ++ kindName k ++
      depthMarker (__pointer_depth t) ++
      (if __is_const_pointer t ≠ 0 then " const" else "") := by
  have hz : ∀ k', k' ≠ k → kindPart k' t = "" := fun k' hne => by
    simp [kindPart, isKind_eq_zero_of_ne t k k' h hne]
  have hk : kindPart k t = kindName k := by simp [kindPart, h]
  have hp : ∀ k', kindPart k' t = if k' = k then kindName k else "" := fun k' => by
    by_cases e : k' = k
    · subst e
      simp [hk]
    · simp [e, hz k' e]
  unfold typeLabel
  simp only [hp]
  cases k <;> simp [String.append_assoc]

theorem starCount_append (a b : String) : starCount (a ++ b) = starCount a + starCount b := by
  simp [starCount, List.count_append]

theorem starCount_kindName (k : Kind) : starCount (kindName k) = 0 := by
  cases k <;> decide

theorem starCount_depthMarker (d : Nat) (hd : d ≤ 3) : starCount (depthMarker d) = d := by
  interval_cases d <;> decide

/-- Up to depth 3 the label of a type with an answering kind predicate has as many `*` as
the reported depth. -/
theorem starCount_typeLabel (t : CType) (k : Kind) (h : isKind k t ≠ 0)
    (hd : __pointer_depth t ≤ 3) : starCount (typeLabel t) = __pointer_depth t := by
  rw [typeLabel_of_kind t k h]
  simp only [starCount_append, starCount_kindName, starCount_depthMarker _ hd]
  have h1 : starCount (if __is_const t ≠ 0 then "const " else "") = 0 := by
    split <;> decide
  have h2 : starCount (if __is_const_pointer t ≠ 0 then " const" else "") = 0 := by
    split <;> decide
  omega

/-- The label when no kind predicate answers: the sixteen kind slots are all empty. -/
theorem typeLabel_of_no_kind (t : CType) (h : ∀ k, isKind k t = 0) :
    typeLabel t =
      (if __is_const t ≠ 0 then "const " else "") ++ depthMarker (__pointer_depth t) ++
      (if __is_const_pointer t ≠ 0 then " const" else "") := by
  have hp : ∀ k, kindPart k t = "" := fun k => by simp [kindPart, h k]
  unfold typeLabel
  simp only [hp, String.append_empty]

/-- No kind predicate answers on a `void` pointer variable that is itself `const`. -/
theorem isKind_zero_on_const_void_pointer (n : Nat) (sc : Bool) (h1 : 1 ≤ n) (k : Kind) :
    isKind k (declType Kind.void n sc true) = 0 := by
  by_contra hne
  obtain ⟨n', c', -, e⟩ := isKind_ne_zero_form k _ hne
  rw [lvalueConv_declType, stars_scalar_inj] at e
  obtain ⟨-, hk, -⟩ := e
  subst hk
  exact hne (is_void_declType_const n sc h1)

/-- The label of every supported type, spelled out: the `const ` of the scalar, the name of
the kind (missing on a `const` pointer variable to `void`), one to three `*` after a blank
for depth 1..3 and nothing for depth 0 and 4, and ` const` for a `const` pointer
variable. -/
theorem typeLabel_declType (k : Kind) (n : Nat) (sc fc : Bool) (hn : n ≤ 4)
    (hv : k = Kind.void → 1 ≤ n) :
    typeLabel (declType k n sc fc) =
      (if sc = true then "const " else "") ++
      (if k = Kind.void ∧ fc = true then "" else kindName k) ++
      (if n = 1 then " *" else if n = 2 then " **" else if n = 3 then " ***" else "") ++
      (if 1 ≤ n ∧ fc = true then " const" else "") := by
  have hc : __is_const (declType k n sc fc) = if sc = true then 1 else 0 :=
    const_flag_of_declType k n sc fc hn
  have hd : __pointer_depth (declType k n sc fc) = n :=
    pointer_depth_of_stars _ n k _ (lvalueConv_declType k n sc fc) hn hv
  have hq : __is_const_pointer (declType k n sc fc) = if 1 ≤ n ∧ fc = true then 1 else 0 := by
    by_cases h1 : 1 ≤ n
    · rw [const_pointer_flag_of_declType k n sc fc h1 hn]
      simp [h1]
    · have h0 : n = 0 := by omega
      subst h0
      have : __is_const_pointer (declType k 0 sc fc) = 0 := by
        by_contra hne
        obtain ⟨-, j, k', c', -, e⟩ := is_const_pointer_ne_zero_inv _ hne
        simp [declType] at e
      simp [this]
  have hA : (if __is_const (declType k n sc fc) ≠ 0 then "const " else "")
      = (if sc = true then "const " else "") := by
    rw [hc]
    cases sc <;> simp
  have hB : (if __is_const_pointer (declType k n sc fc) ≠ 0 then " const" else "")
      = (if 1 ≤ n ∧ fc = true then " const" else "") := by
    rw [hq]
    by_cases h : 1 ≤ n ∧ fc = true <;> simp [h]
  have hM : depthMarker (__pointer_depth (declType k n sc fc))
      = (if n = 1 then " *" else if n = 2 then " **" else if n = 3 then " ***" else "") := by
    rw [hd]
    rfl
  by_cases hvc : k = Kind.void ∧ fc = true
  · obtain ⟨rfl, rfl⟩ := hvc
    rw [typeLabel_of_no_kind _ (isKind_zero_on_const_void_pointer n sc (hv rfl)), hA, hB, hM]
    simp
  · have hk1 : isKind k (declType k n sc fc) ≠ 0 := by
      by_cases hk : k = Kind.void
      · subst hk
        have hf : fc = false := by
          cases fc
          · rfl
          · exact absurd ⟨rfl, rfl⟩ hvc
        subst hf
        have : isKind Kind.void (declType Kind.void n sc false) = 1 :=
          is_void_declType_mutable n sc (hv rfl) hn
        omega
      · rw [isKind_declType_of_ne_void k n sc fc hk hn]
        omega
    rw [typeLabel_of_kind _ k hk1, hA, hB, hM]
    simp [hvc]

/-- Every association of `__type_num` is a declared type of depth 0..4 with its number. -/
theorem mem_typeNumTable_inv (t : CType) (v : Nat) (h : (t, v) ∈ typeNumTable) :
    ∃ n k sc fc, n ≤ 4 ∧ t = declType k n sc fc ∧ v = typeNumValue n k sc fc := by
  simp only [typeNumTable, List.mem_append, List.mem_flatMap, List.mem_cons, typeNumEntry,
    Prod.mk.injEq, List.mem_singleton, List.mem_nil_iff, or_false] at h
  rcases h with ⟨k, -, h | h⟩ | ⟨n, hn, k, -, h | h | h | h⟩
  · exact ⟨0, k, false, false, by omega, h.1, h.2⟩
  · exact ⟨0, k, true, false, by omega, h.1, h.2⟩
  all_goals
    have hn4 : n ≤ 4 := by rcases hn with rfl | rfl | rfl | rfl <;> omega
  · exact ⟨n, k, false, false, hn4, h.1, h.2⟩
  · exact ⟨n, k, true, false, hn4, h.1, h.2⟩
  · exact ⟨n, k, false, true, hn4, h.1, h.2⟩
  · exact ⟨n, k, true, true, hn4, h.1, h.2⟩

/-- A declared type determines its number. -/
theorem typeNumValue_of_declType_eq (k k' : Kind) (n n' : Nat) (sc sc' fc fc' : Bool)
    (h : declType k n sc fc = declType k' n' sc' fc') :
    typeNumValue n k sc fc = typeNumValue n' k' sc' fc' := by
  have hn : n = n' := by
    have := congrArg indirections h
    simpa [indirections_declType] using this
  subst hn
  cases n with
  | zero =>
    simp only [declType, CType.scalar.injEq] at h
    obtain ⟨rfl, rfl⟩ := h
    simp [typeNumValue]
  | succ m =>
    simp only [declType, CType.ptr.injEq, stars_scalar_inj] at h
    obtain ⟨⟨-, rfl, rfl⟩, rfl⟩ := h
    rfl

/-- No type is listed twice with different numbers. -/
theorem typeNumTable_functional (t : CType) (v w : Nat) (hv : (t, v) ∈ typeNumTable)
    (hw : (t, w) ∈ typeNumTable) : v = w := by
  obtain ⟨n, k, sc, fc, -, e, rfl⟩ := mem_typeNumTable_inv t v hv
  obtain ⟨n', k', sc', fc', -, e', rfl⟩ := mem_typeNumTable_inv t w hw
  exact typeNumValue_of_declType_eq k k' n n' sc sc' fc fc' (e.symm.trans e')

/-- The numbers of `__type_num`, in table order, are 1, 2, ..., 286. -/
theorem typeNumTable_values : typeNumTable.map Prod.snd = List.range' 1 286 := by
  decide

/-- Entries of `__type_num` read off the header: `int**: 111`, `float* const: 65`,
`const double***: 188`, `unsigned long long**** const: 285`. -/
theorem typeNumTable_samples :
    (declType Kind.int 2 false false, 111) ∈ typeNumTable ∧
    (declType Kind.float 1 false true, 65) ∈ typeNumTable ∧
    (declType Kind.double 3 true false, 188) ∈ typeNumTable ∧
    (declType Kind.ullong 4 false true, 285) ∈ typeNumTable := by
  decide

theorem topConst_lvalueConv (t : CType) : topConst (lvalueConv t) = false := by
  cases t <;> rfl

/-! ## Third group of claims -/

/-- C21 fails as stated: `int *****p`, five pointer levels and so outside the closed set,
has `__pointer_depth`, `__is_const` and `__is_const_pointer` equal to 0, but `__sizeof` is
the default `sizeof(p)`, 8 on LP64, not 0. -/
theorem sizeof_of_unsupported_not_zero :
    (∀ k n sc fc, n ≤ 4 → declType Kind.int 5 false false ≠ declType k n sc fc) ∧
    __pointer_depth (declType Kind.int 5 false false) = 0 ∧
    __is_const (declType Kind.int 5 false false) = 0 ∧
    __is_const_pointer (declType Kind.int 5 false false) = 0 ∧
    __sizeof lp64 (declType Kind.int 5 false false) = 8 := by
  refine ⟨?_, by decide, by decide, by decide, by decide⟩
  intro k n sc fc hn h
  have := congrArg indirections h
  simp only [indirections_declType] at this
  omega

/-- C21, amended: on every type that, after lvalue conversion and array-to-pointer decay,
is not a kind under at most four unqualified pointers, `__pointer_depth`, `__is_const` and
`__is_const_pointer` are 0 and `__sizeof` is the default `sizeof(x)`, the value's own
size. -/
theorem classifier_facts_outside (P : Platform) (t : CType)
    (h : ∀ k n c, n ≤ 4 → lvalueConv t ≠ stars n (CType.scalar k c)) :
    __pointer_depth t = 0 ∧ __is_const t = 0 ∧ __is_const_pointer t = 0 ∧
    __sizeof P t = sizeof P t := by
  refine ⟨?_, ?_, ?_, sizeof_default_outside P t h⟩
  · by_contra h0
    obtain ⟨k, c, ht, hle⟩ := pointer_depth_ne_zero_inv t h0
    exact h k _ c hle ht
  · have ha : isConstAddr t = 0 := by
      by_contra h0
      obtain ⟨k, c, rfl⟩ := isConstAddr_ne_zero_inv t h0
      exact h k 0 false (by omega) rfl
    have hv : isConstVal t = 0 := by
      by_contra h0
      obtain ⟨n, k, c, hn, ht⟩ := isConstVal_ne_zero_inv t h0
      exact h k n c hn ht
    simp [__is_const, ha, hv]
  · by_contra h0
    obtain ⟨-, j, k, c, hj, rfl⟩ := is_const_pointer_ne_zero_inv t h0
    exact h k (j + 1) c (by omega) rfl

theorem classifier_facts_outside_witness :
    (∀ k n c, n ≤ 4 →
      lvalueConv (declType Kind.int 5 false false) ≠ stars n (CType.scalar k c)) ∧
    __pointer_depth (declType Kind.int 5 false false) = 0 ∧
    __is_const (declType Kind.int 5 false false) = 0 ∧
    __is_const_pointer (declType Kind.int 5 false false) = 0 ∧
    __sizeof lp64 (declType Kind.int 5 false false)
      = sizeof lp64 (declType Kind.int 5 false false) :=
  ⟨fun k n c hn => not_stars_of_five_le _ (by decide) k n c hn,
   classifier_facts_outside lp64 (declType Kind.int 5 false false)
     (fun k n c hn => not_stars_of_five_le _ (by decide) k n c hn)⟩

/-- C22: on every type on which `__pointer_depth` is 0, `__sizeof` is `sizeof(x)`, the
value's own size. -/
theorem sizeof_of_depth_zero (P : Platform) (t : CType) (h : __pointer_depth t = 0) :
    __sizeof P t = sizeof P t := by
  rcases generic_default_or_mem (lvalueConv t) (sizeofTable P) (sizeof P t) with hd | hm
  · exact hd
  · obtain ⟨n, k, c, ht, hn, hv, hw⟩ := (mem_sizeofTable P _ _).1 hm
    have hpd := pointer_depth_of_stars t n k c ht hn hv
    have h0 : n = 0 := by omega
    subst h0
    rw [__sizeof, hw]
    cases t with
    | scalar k' c' =>
      simp only [lvalueConv, stars, CType.scalar.injEq] at ht
      simp [sizeof, ht.1]
    | aggregate s' c' => simp [lvalueConv, stars] at ht
    | ptr x q => simp [lvalueConv, stars] at ht
    | arr e len => simp [lvalueConv, stars] at ht

theorem sizeof_of_depth_zero_witness :
    __pointer_depth (CType.scalar Kind.ldouble true) = 0 ∧
    __sizeof lp64 (CType.scalar Kind.ldouble true)
      = sizeof lp64 (CType.scalar Kind.ldouble true) :=
  ⟨by decide, sizeof_of_depth_zero lp64 (CType.scalar Kind.ldouble true) (by decide)⟩

/-- C23, at the failing input `void * const p`: `printtype` labels it ` * const`, with no
kind name at all, because no kind predicate answers on it, whereas `void *p` is labelled
`void *`, `int * const q` is labelled `int * const` and `const int *r` is labelled
`const int *`. -/
theorem printtype_const_void_pointer_unnamed :
    typeLabel (declType Kind.void 1 false true) = " * const" ∧
    printtype "p" (declType Kind.void 1 false true)
      = "The type of the variable \"p\":  * const\n" ∧
    typeLabel (declType Kind.void 1 false false) = "void *" ∧
    typeLabel (declType Kind.int 1 false true) = "int * const" ∧
    typeLabel (declType Kind.int 1 true false) = "const int *" := by
  decide

/-- C24, at the failing input `int ****p`: the reported depth is 4, a supported quadruple
pointer, but the indirection marker of `printtype` stops at depth 3, so the label is `int`
with no `*` at all. -/
theorem printtype_quadruple_pointer_no_star :
    __pointer_depth (declType Kind.int 4 false false) = 4 ∧
    typeLabel (declType Kind.int 4 false false) = "int" ∧
    starCount (typeLabel (declType Kind.int 4 false false)) = 0 ∧
    starCount (typeLabel (declType Kind.int 3 false false)) = 3 := by
  decide

/-- C25: on a platform whose non-void kinds have positive size, `__sizeof` is 0 on every
`void` pointer of depth 1..4, whatever its qualifiers, and strictly positive on every
supported type of any other kind. -/
theorem sizeof_void_zero_others_positive (P : Platform) (k : Kind) (n : Nat) (sc fc : Bool)
    (hn : n ≤ 4) (hv : k = Kind.void → 1 ≤ n)
    (hpos : ∀ k', k' ≠ Kind.void → 0 < P.sizeofKind k') :
    (k = Kind.void → __sizeof P (declType k n sc fc) = 0) ∧
    (k ≠ Kind.void → 0 < __sizeof P (declType k n sc fc)) := by
  constructor
  · intro hk
    subst hk
    exact sizeof_void_of_stars P _ n _ (lvalueConv_declType Kind.void n sc fc) (hv rfl) hn
  · intro hk
    rw [sizeof_of_stars P _ n k _ hk (lvalueConv_declType k n sc fc) hn]
    exact hpos k hk

theorem sizeof_void_zero_others_positive_witness :
    (3 ≤ 4) ∧ (Kind.void = Kind.void → 1 ≤ 3) ∧
    (∀ k', k' ≠ Kind.void → 0 < lp64.sizeofKind k') ∧
    __sizeof lp64 (declType Kind.void 3 true true) = 0 :=
  have hp : ∀ k', k' ≠ Kind.void → 0 < lp64.sizeofKind k' := fun k' hk => by
    cases k' <;> first | exact absurd rfl hk | decide
  ⟨by decide, by decide, hp,
   (sizeof_void_zero_others_positive lp64 Kind.void 3 true true (by decide) (by decide)
     hp).1 rfl⟩

/-- C26: in every record built through the non-fixed branch (`sizeof(x) == sizeof(void*)`)
with `typesize = s > 0` and probe result `p`,
`arraysize * s <= p < (arraysize + 1) * s`. -/
theorem allocated_info_count_is_floor (P : Platform) (name : String) (t : CType) (p : Nat)
    (r : allocated_record) (h : allocated_info P name t p = Except.ok r)
    (hf : sizeof P t = P.sizeofPtr) (hs : 0 < r.typesize) :
    r.arraysize * r.typesize ≤ p ∧ p < (r.arraysize + 1) * r.typesize := by
  obtain ⟨elem, hd, ⟨hne, -⟩ | ⟨-, hz⟩⟩ := make_record_ok_inv P name t p r h
  · exact absurd hf hne
  · rw [allocated_info, make_record_probe P name t elem p hd hf hz] at h
    cases h
    have h1 := Nat.div_add_mod p (__sizeof P elem)
    have h2 := Nat.mod_lt p hs
    have h3 := Nat.mul_comm (__sizeof P elem) (p / __sizeof P elem)
    have h4 := Nat.succ_mul (p / __sizeof P elem) (__sizeof P elem)
    simp only [Nat.succ_eq_add_one] at h4
    simp only at h2
    constructor
    · show p / __sizeof P elem * __sizeof P elem ≤ p
      omega
    · show p < (p / __sizeof P elem + 1) * __sizeof P elem
      omega

theorem allocated_info_count_is_floor_witness :
    allocated_info lp64 "p" (declType Kind.ldouble 1 false false) 24
      = Except.ok ⟨"p", methods.allocated, 1, 16, 24, 1⟩ ∧
    sizeof lp64 (declType Kind.ldouble 1 false false) = lp64.sizeofPtr ∧ (0 < 16) ∧
    1 * 16 ≤ 24 ∧ 24 < (1 + 1) * 16 :=
  ⟨rfl, rfl, by decide,
   allocated_info_count_is_floor lp64 "p" (declType Kind.ldouble 1 false false) 24
     ⟨"p", methods.allocated, 1, 16, 24, 1⟩ rfl rfl (by decide)⟩

/-- C27: a pointer, whatever it points to and whatever its qualifiers, has
`sizeof(x) == sizeof(void*)`; no record built for it has method `fixed`, the method is
`allocated` exactly when the probe result is positive and `dynamic` exactly when it is 0,
and a record is built whenever `__sizeof(*x)` is not 0. -/
theorem allocated_info_pointer_never_fixed (P : Platform) (name : String) (elem : CType)
    (q : Bool) (p : Nat) :
    sizeof P (CType.ptr elem q) = P.sizeofPtr ∧
    (∀ r, allocated_info P name (CType.ptr elem q) p = Except.ok r →
      r.method ≠ methods.fixed ∧ (r.method = methods.allocated ↔ 0 < p) ∧
      (r.method = methods.dynamic ↔ p = 0)) ∧
    (__sizeof P elem ≠ 0 → ∃ r, allocated_info P name (CType.ptr elem q) p = Except.ok r) := by
  refine ⟨rfl, ?_, fun hz => ⟨_, make_record_probe P name _ elem p rfl rfl hz⟩⟩
  intro r hr
  obtain ⟨e, hd, ⟨hne, -⟩ | ⟨hf, hz⟩⟩ := make_record_ok_inv P name _ p r hr
  · exact absurd rfl hne
  · rw [allocated_info, make_record_probe P name _ e p hd hf hz] at hr
    cases hr
    by_cases hp : 0 < p
    · simp [hp]
      omega
    · simp [hp]
      omega

theorem allocated_info_pointer_never_fixed_witness :
    __sizeof lp64 (CType.scalar Kind.int true) ≠ 0 ∧
    ∃ r, allocated_info lp64 "p" (CType.ptr (CType.scalar Kind.int true) true) 7
      = Except.ok r :=
  ⟨by decide,
   (allocated_info_pointer_never_fixed lp64 "p" (CType.scalar Kind.int true) true 7).2.2
     (by decide)⟩

/-- C28: in every record built, `pointer_depth` is `__pointer_depth` of the inspected
value, which is selected on the decayed type and mentions neither the probe result nor the
branch; it is `n` for a pointer of depth `n` in 1..4 to any kind and 1 for a
one-dimensional array of a non-void scalar kind. -/
theorem allocated_info_pointer_depth (P : Platform) (name : String) (t : CType) (p : Nat)
    (r : allocated_record) (h : allocated_info P name t p = Except.ok r) :
    r.pointer_depth = __pointer_depth t ∧
    r.pointer_depth = generic (lvalueConv t) depthTable 0 ∧
    (∀ k n sc fc, 1 ≤ n → n ≤ 4 → t = declType k n sc fc → r.pointer_depth = n) ∧
    (∀ k c len, k ≠ Kind.void → t = CType.arr (CType.scalar k c) len →
      r.pointer_depth = 1) := by
  have hr : r.pointer_depth = __pointer_depth t := by
    have hm : __pointer_depth t % 256 = __pointer_depth t :=
      Nat.mod_eq_of_lt (by have := pointer_depth_le_four t; omega)
    obtain ⟨elem, hd, ⟨hf, hz⟩ | ⟨hf, hz⟩⟩ := make_record_ok_inv P name t p r h
    · rw [allocated_info, make_record_structural P name t elem p hd hf hz] at h
      cases h
      exact hm
    · rw [allocated_info, make_record_probe P name t elem p hd hf hz] at h
      cases h
      exact hm
  refine ⟨hr, hr, ?_, ?_⟩
  · intro k n sc fc h1 hn ht
    rw [hr, ht]
    exact pointer_depth_of_stars _ n k _ (lvalueConv_declType k n sc fc) hn (fun _ => h1)
  · intro k c len hk ht
    rw [hr, ht]
    exact pointer_depth_of_stars _ 1 k c rfl (by omega) (fun _ => by omega)

theorem allocated_info_pointer_depth_witness :
    allocated_info lp64 "a" (CType.arr (CType.scalar Kind.short false) 8) 0
      = Except.ok ⟨"a", methods.fixed, 1, 2, 16, 8⟩ ∧
    1 = __pointer_depth (CType.arr (CType.scalar Kind.short false) 8) :=
  ⟨rfl,
   (allocated_info_pointer_depth lp64 "a" (CType.arr (CType.scalar Kind.short false) 8) 0
     ⟨"a", methods.fixed, 1, 2, 16, 8⟩ rfl).1⟩

/-- C29 fails as stated: `const bool` is listed with the number 2, but `__type_num` of a
`const bool` variable is 1, the number of `bool`, because the selection drops the top-level
qualifier; likewise `void * const`, listed with 33, gets 31, the number of `void *`. -/
theorem type_num_shared_by_listed_types :
    (CType.scalar Kind.bool false, 1) ∈ typeNumTable ∧
    (CType.scalar Kind.bool true, 2) ∈ typeNumTable ∧
    __type_num (CType.scalar Kind.bool false) = 1 ∧
    __type_num (CType.scalar Kind.bool true) = 1 ∧
    (declType Kind.void 1 false true, 33) ∈ typeNumTable ∧
    __type_num (declType Kind.void 1 false true) = 31 := by
  decide

/-- C29, amended: the association list of `__type_num` holds 286 entries whose numbers are
1..286 in table order, two entries have the same type exactly when they have the same
number, and `__type_num` returns the number listed for the type after lvalue conversion
(0 when that type is not listed), so it never returns the number of an entry whose type is
`const` at top level. -/
theorem type_num_table_and_selection :
    typeNumTable.length = 286 ∧
    typeNumTable.map Prod.snd = List.range' 1 286 ∧
    (∀ e1 ∈ typeNumTable, ∀ e2 ∈ typeNumTable, (e1.1 = e2.1 ↔ e1.2 = e2.2)) ∧
    (∀ t v, (lvalueConv t, v) ∈ typeNumTable → __type_num t = v) ∧
    (∀ t, (∀ v, (lvalueConv t, v) ∉ typeNumTable) → __type_num t = 0) ∧
    (∀ t e, e ∈ typeNumTable → topConst e.1 = true → __type_num t ≠ e.2) := by
  have hnd : (typeNumTable.map Prod.snd).Nodup := by
    rw [typeNumTable_values]
    exact List.nodup_range' 1 286
  have hinj : ∀ e1 ∈ typeNumTable, ∀ e2 ∈ typeNumTable, e1.2 = e2.2 → e1 = e2 :=
    fun e1 h1 e2 h2 he => List.inj_on_of_nodup_map hnd h1 h2 he
  have hpos : ∀ e ∈ typeNumTable, e.2 ≠ 0 := fun e he h0 => by
    have hm : e.2 ∈ typeNumTable.map Prod.snd := List.mem_map_of_mem Prod.snd he
    rw [typeNumTable_values, List.mem_range'_1] at hm
    omega
  refine ⟨by decide, typeNumTable_values, ?_, ?_, ?_, ?_⟩
  · intro e1 h1 e2 h2
    constructor
    · intro he
      obtain ⟨t1, v1⟩ := e1
      obtain ⟨t2, v2⟩ := e2
      simp only at he
      subst he
      exact typeNumTable_functional t1 v1 v2 h1 h2
    · intro he
      rw [hinj e1 h1 e2 h2 he]
  · intro t v hv
    exact generic_of_mem _ _ 0 v hv (fun w hw => typeNumTable_functional _ w v hw hv)
  · intro t hno
    exact generic_of_not_mem _ _ 0 hno
  · intro t e he hc heq
    have hne : generic (lvalueConv t) typeNumTable 0 ≠ 0 := by
      have := hpos e he
      rw [__type_num] at heq
      omega
    have hm := mem_of_generic_ne_zero _ _ hne
    have hee := hinj _ hm e he heq
    have := topConst_lvalueConv t
    rw [← hee] at hc
    simp only at hc
    rw [this] at hc
    exact Bool.false_ne_true hc

end Florestan
